import Mathlib

/-!
# ContentFile: the deduplicating content-resource cache

A shallow embedding of `src/System/ContentFile.cpp`.

Conventions of the embedding:

* a `std::string` is a `Str` (a list of characters, one per byte, free of embedded NUL);
* a raw pointer (`BITMAP *`, `FMOD::Sound *`) is a `Ptr`: `none` is `nullptr`, `some n` is the
  object produced by the `n`-th successful allocation (every successful decode returns a
  freshly allocated object); a handle names the object, not its address, so the number of a
  destroyed object is not given out again;
* the process-wide statics (`s_LoadedBitmaps`, `s_LoadedSamples`, `s_PathHashes`,
  `s_GLTextures`) and the observable effects (console output, load warnings, calls of the
  decode primitives, `destroy_bitmap`) are fields of `State`;
* everything the code consumes from outside (the disk, the decoders, the audio manager, the
  module registry, library constants) is a field of `Env`;
* `RTEAbort`, a failed `RTEAssert` and an uncaught exception end the process: `Outcome.aborts`;
* an `std::unordered_map` is an association list in insertion order (newest first), read with
  `List.lookup`;
* `size_t` has 64 bits.
-/

namespace RTE

/-- A `std::string`. -/
abbrev Str := List Char

/-- A raw pointer: `none` is `nullptr`, `some n` the `n`-th allocated object. -/
abbrev Ptr := Option Nat

/-- An `std::unordered_map<std::string, T *>`. -/
abbrev Cache := List (Str × Ptr)

/-- The ways the process is ended by the code. -/
inductive Fatal where
  /-- The `RTEAssert(!m_DataPathExtension.empty(), ...)` in `SetDataPath`. -/
  | noFileExtension
  /-- The `RTEAbort("Failed to find image file ...")` in `GetAsBitmap`. -/
  | imageNotFound
  /-- The `RTEAssert(returnBitmap, ...)` in `LoadAndReleaseBitmap`. -/
  | imageLoadFailed
  /-- The `RTEAssert(!abortGameForInvalidSound, ...)` after the search for an alternative. -/
  | soundNotFound
  /-- The `RTEAssert(!abortGameForInvalidSound, ...)` for a zero-byte file. -/
  | soundEmpty
  /-- The `RTEAssert(!abortGameForInvalidSound, ...)` for an FMOD error. -/
  | soundCreateFailed
  /-- The exception `std::filesystem::file_size` throws for a path that does not exist. -/
  | fileSizeError
  deriving DecidableEq, Repr

/-- The result of running a piece of the code: it returns a value or the process is aborted. -/
inductive Outcome (α : Type) where
  | returns (a : α)
  | aborts (f : Fatal)
  deriving DecidableEq, Repr

/-- The two partitions of `s_LoadedBitmaps` (`ContentFile::BitDepths`). -/
inductive BitDepths where
  | Eight
  | ThirtyTwo
  deriving DecidableEq, Repr

/-- The array `s_LoadedBitmaps`: one map per bit depth. -/
structure LoadedBitmaps where
  eight : Cache
  thirtyTwo : Cache
  deriving DecidableEq, Repr

/-- Read `s_LoadedBitmaps[bitDepth]`. -/
def LoadedBitmaps.get (m : LoadedBitmaps) : BitDepths → Cache
  | .Eight => m.eight
  | .ThirtyTwo => m.thirtyTwo

/-- Replace `s_LoadedBitmaps[bitDepth]`. -/
def LoadedBitmaps.set (m : LoadedBitmaps) (b : BitDepths) (c : Cache) : LoadedBitmaps :=
  match b with
  | .Eight => { m with eight := c }
  | .ThirtyTwo => { m with thirtyTwo := c }

/-- What the code consumes from outside: the disk, the decode primitives, the audio manager,
the module registry and the constants declared in headers that are not part of the sources. -/
structure Env where
  /-- The function `System::PathExistsCaseSensitive`. -/
  PathExistsCaseSensitive : Str → Bool
  /-- The `std::filesystem::file_size` of an existing file. -/
  file_size : Str → Nat
  /-- Whether `load_bitmap` succeeds for a path under a colour conversion mode. -/
  load_bitmap : Int → Str → Bool
  /-- The `bitmap_color_depth` of the bitmap `load_bitmap` produces. -/
  bitmap_color_depth : Int → Str → Nat
  /-- The outcome of `createSound` for a path (second argument: `asyncLoading`): `none` for
  `FMOD_OK`, and otherwise the `FMOD_ErrorString` of the result. -/
  createSound : Str → Bool → Option Str
  /-- The value of `g_AudioMan.IsAudioEnabled()`. -/
  IsAudioEnabled : Bool
  /-- The constant `c_SupportedAudioFormats`. -/
  c_SupportedAudioFormats : List Str
  /-- The Allegro constant `COLORCONV_8_TO_32`. -/
  COLORCONV_8_TO_32 : Int
  /-- The Allegro constant `COLORCONV_MOST`. -/
  COLORCONV_MOST : Int
  /-- The function `boost::hash<std::string>`. -/
  hash : Str → Nat
  /-- The function `g_PresetMan.GetModuleIDFromPath`. -/
  GetModuleIDFromPath : Str → Int

/-- The process-wide state the code reads and writes, and the effects it has. -/
structure State where
  s_LoadedBitmaps : LoadedBitmaps
  s_LoadedSamples : Cache
  s_PathHashes : List (Nat × Str)
  /-- The bitmaps a GL texture was created for, oldest first. -/
  s_GLTextures : List Nat
  /-- The number of objects allocated so far by the decode primitives. -/
  allocated : Nat
  /-- The pointers passed to `destroy_bitmap`, oldest first. -/
  destroyed : List Ptr
  /-- The calls of `g_ConsoleMan.AddLoadWarningLogEntry`, oldest first. -/
  loadWarnings : List (Str × Str × Str)
  /-- The calls of `g_ConsoleMan.PrintString`, oldest first. -/
  console : List Str
  /-- The calls of `load_bitmap` (colour conversion in force, path), oldest first. -/
  bitmapLoads : List (Int × Str)
  /-- The calls of `createSound` (path, `asyncLoading`), oldest first. -/
  soundLoads : List (Str × Bool)
  deriving DecidableEq, Repr

/-- The state of a process that has not loaded anything yet. -/
def State.initial : State :=
  { s_LoadedBitmaps := ⟨[], []⟩, s_LoadedSamples := [], s_PathHashes := [], s_GLTextures := [],
    allocated := 0, destroyed := [], loadWarnings := [], console := [], bitmapLoads := [],
    soundLoads := [] }

/-- The member variables of a `ContentFile`. -/
structure ContentFile where
  m_DataPath : Str
  m_DataPathExtension : Str
  m_DataPathWithoutExtension : Str
  m_FormattedReaderPosition : Str
  m_DataPathAndReaderPosition : Str
  m_DataModuleID : Int
  deriving DecidableEq, Repr

/-! ## Library functions -/

/-- The `size_t` subtraction of two string lengths: the difference, wrapped around modulo `2 ^ 64`
when the second length is the greater one. -/
def sizeSub (a b : Nat) : Nat := if b ≤ a then a - b else a + 2 ^ 64 - b

/-- The call `std::string::substr(0, count)`. -/
def substr0 (s : Str) (count : Nat) : Str := s.take count

/-- The method `std::unordered_map::find`. -/
def find (c : Cache) (key : Str) : Option Ptr := c.lookup key

/-- The method `std::unordered_map::try_emplace`: it inserts only when the key is not present. -/
def try_emplace (c : Cache) (key : Str) (value : Ptr) : Cache :=
  match c.lookup key with
  | some _ => c
  | none => (key, value) :: c

/-- The method `std::unordered_map::operator[]` followed by an assignment: the key is bound to the value,
whatever it was bound to before. -/
def assign (m : List (Nat × Str)) (key : Nat) (value : Str) : List (Nat × Str) :=
  (key, value) :: m.filter (fun e => e.1 != key)

/-- The method `std::filesystem::path::filename` in the generic format: what follows the last `/`. -/
def filename (p : Str) : Str := (p.reverse.takeWhile (fun c => c != '/')).reverse

/-- The method `std::filesystem::path::extension`: the filename from its last `.` on, and empty when the
filename is `.` or `..`, has no `.`, or has its only `.` as the first character. -/
def extension (p : Str) : Str :=
  let f := filename p
  let afterDot := (f.reverse.takeWhile (fun c => c != '.')).reverse
  if f = ['.'] ∨ f = ['.', '.'] then []
  else if afterDot.length = f.length then []
  else if afterDot.length + 1 = f.length then []
  else '.' :: afterDot

/-- Modelled from the spec: `CorrectBackslashesInPath` is declared outside the sources; the spec
says it replaces platform-inconsistent path separators with a single canonical separator. -/
def CorrectBackslashesInPath (p : Str) : Str := p.map (fun c => if c = '\\' then '/' else c)

/-- The `%03i` conversion of `snprintf` for a frame number: decimal, at least three digits. -/
def pad3 (n : Nat) : Str :=
  let ds := Nat.toDigits 10 n
  List.replicate (3 - ds.length) '0' ++ ds

/-! ## ContentFile -/

/-- The method `ContentFile::Clear`. -/
def Clear (_d : ContentFile) : ContentFile :=
  { m_DataPath := [], m_DataPathExtension := [], m_DataPathWithoutExtension := [],
    m_FormattedReaderPosition := [], m_DataPathAndReaderPosition := [], m_DataModuleID := 0 }

/-- The method `ContentFile::GetHash`. -/
def GetHash (env : Env) (d : ContentFile) : Nat := env.hash d.m_DataPath

/-- The method `ContentFile::SetFormattedReaderPosition`. Its callers pass `GetFormattedReaderPosition()`,
the getter of `m_FormattedReaderPosition`. -/
def SetFormattedReaderPosition (d : ContentFile) (newPosition : Str) : ContentFile :=
  { d with m_FormattedReaderPosition := newPosition,
           m_DataPathAndReaderPosition := d.m_DataPath ++ '\n' :: newPosition }

/-- The method `ContentFile::SetDataPath`. -/
def SetDataPath (env : Env) (s : State) (d : ContentFile) (newDataPath : Str) :
    Outcome (State × ContentFile) :=
  let d1 := { d with m_DataPath := CorrectBackslashesInPath newDataPath }
  let d2 := { d1 with m_DataPathExtension := extension d1.m_DataPath }
  if d2.m_DataPathExtension = [] then .aborts .noFileExtension
  else
    let withoutExtension :=
      substr0 d2.m_DataPath (sizeSub d2.m_DataPath.length d2.m_DataPathExtension.length)
    let d3 := { d2 with m_DataPathWithoutExtension := withoutExtension }
    let s1 := { s with s_PathHashes := assign s.s_PathHashes (GetHash env d3) d3.m_DataPath }
    .returns (s1, { d3 with m_DataModuleID := env.GetModuleIDFromPath d3.m_DataPath })

/-- The method `ContentFile::Create(const char *filePath)`. -/
def Create (env : Env) (s : State) (d : ContentFile) (filePath : Str) :
    Outcome (State × ContentFile) :=
  match SetDataPath env s d filePath with
  | .aborts f => .aborts f
  | .returns (s1, d1) => .returns (s1, SetFormattedReaderPosition d1 d1.m_FormattedReaderPosition)

/-- The method `ContentFile::Create(const ContentFile &reference)`. -/
def CreateFrom (d reference : ContentFile) : ContentFile :=
  { d with m_DataPath := reference.m_DataPath,
           m_DataPathExtension := reference.m_DataPathExtension,
           m_DataPathWithoutExtension := reference.m_DataPathWithoutExtension,
           m_DataModuleID := reference.m_DataModuleID }

/-- The method `ContentFile::FreeAllLoaded`: every cached bitmap of both depths goes to `destroy_bitmap`;
the maps themselves are not touched. -/
def FreeAllLoaded (s : State) : State :=
  let eight := (s.s_LoadedBitmaps.get .Eight).map Prod.snd
  let thirtyTwo := (s.s_LoadedBitmaps.get .ThirtyTwo).map Prod.snd
  { s with destroyed := s.destroyed ++ eight ++ thirtyTwo }

/-- The partition `GetAsBitmap` selects for a conversion mode. -/
def bitDepthOf (env : Env) (conversionMode : Int) : BitDepths :=
  if conversionMode = env.COLORCONV_8_TO_32 then .ThirtyTwo else .Eight

/-- The alternative image extension: `.bmp` for `.png`, `.png` for everything else. -/
def altImageExtension (ext : Str) : Str :=
  if ext = ".png".toList then ".bmp".toList else ".png".toList

/-- The method `ContentFile::LoadAndReleaseBitmap`. -/
def LoadAndReleaseBitmap (env : Env) (s : State) (d : ContentFile) (conversionMode : Int)
    (dataPathToSpecificFrame : Str) : Outcome (Ptr × State × ContentFile) :=
  if d.m_DataPath = [] then .returns (none, s, d)
  else
    let dataPathToLoad := if dataPathToSpecificFrame = [] then d.m_DataPath
                          else dataPathToSpecificFrame
    let d1 := SetFormattedReaderPosition d d.m_FormattedReaderPosition
    let mode := if conversionMode = 0 then env.COLORCONV_MOST else conversionMode
    let s1 := { s with bitmapLoads := s.bitmapLoads ++ [(mode, dataPathToLoad)] }
    if env.load_bitmap mode dataPathToLoad = false then .aborts .imageLoadFailed
    else
      let s2 := { s1 with allocated := s1.allocated + 1 }
      let s3 := if env.bitmap_color_depth mode dataPathToLoad = 32
                then { s2 with s_GLTextures := s2.s_GLTextures ++ [s1.allocated] } else s2
      .returns (some s1.allocated, s3, d1)

/-- The fallback block of `GetAsBitmap` (`if (!System::PathExistsCaseSensitive(dataPathToLoad))`):
when the path to load is not on disk, the alternative extension is tried; it yields the path to
load, and the descriptor as rewritten. -/
def resolveBitmapPath (env : Env) (s : State) (d : ContentFile) (dataPathToLoad : Str) :
    Outcome (Str × State × ContentFile) :=
  if env.PathExistsCaseSensitive dataPathToLoad = false then
    let dataPathWithoutExtension := substr0 dataPathToLoad
      (sizeSub dataPathToLoad.length d.m_DataPathExtension.length)
    let altFileExtension := altImageExtension d.m_DataPathExtension
    if env.PathExistsCaseSensitive (dataPathWithoutExtension ++ altFileExtension) then
      let warning := (d.m_DataPath, d.m_FormattedReaderPosition, altFileExtension)
      let s1 := { s with loadWarnings := s.loadWarnings ++ [warning] }
      match SetDataPath env s1 d (d.m_DataPathWithoutExtension ++ altFileExtension) with
      | .aborts f => .aborts f
      | .returns (s2, d2) => .returns (dataPathWithoutExtension ++ altFileExtension, s2, d2)
    else .aborts .imageNotFound
  else .returns (dataPathToLoad, s, d)

/-- The method `ContentFile::GetAsBitmap`. -/
def GetAsBitmap (env : Env) (s : State) (d : ContentFile) (conversionMode : Int)
    (storeBitmap : Bool) (dataPathToSpecificFrame : Str) : Outcome (Ptr × State × ContentFile) :=
  if d.m_DataPath = [] then .returns (none, s, d)
  else
    let bitDepth := bitDepthOf env conversionMode
    let dataPathToLoad := if dataPathToSpecificFrame = [] then d.m_DataPath
                          else dataPathToSpecificFrame
    let d1 := SetFormattedReaderPosition d d.m_FormattedReaderPosition
    match find (s.s_LoadedBitmaps.get bitDepth) dataPathToLoad with
    | some foundBitmap => .returns (foundBitmap, s, d1)
    | none =>
      match resolveBitmapPath env s d1 dataPathToLoad with
      | .aborts f => .aborts f
      | .returns (pathToLoad, s2, d2) =>
        match LoadAndReleaseBitmap env s2 d2 conversionMode pathToLoad with
        | .aborts f => .aborts f
        | .returns (returnBitmap, s3, d3) =>
          let stored := s3.s_LoadedBitmaps.set bitDepth
            (try_emplace (s3.s_LoadedBitmaps.get bitDepth) pathToLoad returnBitmap)
          let s4 := if storeBitmap then { s3 with s_LoadedBitmaps := stored } else s3
          .returns (returnBitmap, s4, d3)

/-- The `snprintf(framePath, sizeof(framePath), "%s%03i%s", ...)` of `GetAsAnimation`: the
buffer holds 1024 bytes, so at most 1023 characters are kept. -/
def framePath (d : ContentFile) (frameNum : Nat) : Str :=
  (d.m_DataPathWithoutExtension ++ pad3 frameNum ++ d.m_DataPathExtension).take 1023

/-- The `for` loop of `GetAsAnimation`: `remaining` iterations, starting at `frameNum`. -/
def animationLoop (env : Env) (conversionMode : Int) :
    Nat → Nat → State → ContentFile → List Ptr → Outcome (List Ptr × State × ContentFile)
  | 0, _, s, d, vectorToFill => .returns (vectorToFill, s, d)
  | remaining + 1, frameNum, s, d, vectorToFill =>
    match GetAsBitmap env s d conversionMode true (framePath d frameNum) with
    | .aborts f => .aborts f
    | .returns (bitmap, s1, d1) =>
      animationLoop env conversionMode remaining (frameNum + 1) s1 d1 (vectorToFill ++ [bitmap])

/-- The single-frame block of `GetAsAnimation` (`if (!System::PathExistsCaseSensitive(m_DataPath))`):
when the path is not on disk, the `000` file is tried with the same and then with the
alternative extension. -/
def resolveSingleFrame (env : Env) (s : State) (d : ContentFile) : Outcome (State × ContentFile) :=
  let zeros := "000".toList
  if env.PathExistsCaseSensitive d.m_DataPath = false then
    let altFileExtension := altImageExtension d.m_DataPathExtension
    if env.PathExistsCaseSensitive
        (d.m_DataPathWithoutExtension ++ zeros ++ d.m_DataPathExtension) then
      SetDataPath env s d (d.m_DataPathWithoutExtension ++ zeros ++ d.m_DataPathExtension)
    else if env.PathExistsCaseSensitive
        (d.m_DataPathWithoutExtension ++ zeros ++ altFileExtension) then
      let warning := (d.m_DataPath, d.m_FormattedReaderPosition, altFileExtension)
      let s1 := { s with loadWarnings := s.loadWarnings ++ [warning] }
      SetDataPath env s1 d (d.m_DataPathWithoutExtension ++ zeros ++ altFileExtension)
    else .returns (s, d)
  else .returns (s, d)

/-- The method `ContentFile::GetAsAnimation`. The single-frame call `GetAsBitmap(conversionMode)` takes the
defaults of the declaration for its other arguments: `storeBitmap = true` and no frame path. -/
def GetAsAnimation (env : Env) (s : State) (d : ContentFile) (vectorToFill : List Ptr)
    (frameCount : Int) (conversionMode : Int) : Outcome (List Ptr × State × ContentFile) :=
  if d.m_DataPath = [] ∨ frameCount < 1 then .returns (vectorToFill, s, d)
  else
    let d1 := SetFormattedReaderPosition d d.m_FormattedReaderPosition
    if frameCount = 1 then
      match resolveSingleFrame env s d1 with
      | .aborts f => .aborts f
      | .returns (s2, d2) =>
        match GetAsBitmap env s2 d2 conversionMode true [] with
        | .aborts f => .aborts f
        | .returns (bitmap, s3, d3) => .returns (vectorToFill ++ [bitmap], s3, d3)
    else animationLoop env conversionMode frameCount.toNat 0 s d1 vectorToFill

/-- The fallback block of `LoadAndReleaseSound` (`if (!System::PathExistsCaseSensitive(m_DataPath))`):
when the path is not on disk, the supported audio formats are tried in order. The flag is
`false` for the early `return nullptr`. -/
def resolveSoundPath (env : Env) (s : State) (d : ContentFile) (abortGameForInvalidSound : Bool) :
    Outcome (Bool × State × ContentFile) :=
  if env.PathExistsCaseSensitive d.m_DataPath = false then
    match env.c_SupportedAudioFormats.find?
        (fun altFileExtension =>
          env.PathExistsCaseSensitive (d.m_DataPathWithoutExtension ++ altFileExtension)) with
    | some altFileExtension =>
      let warning := (d.m_DataPath, d.m_FormattedReaderPosition, altFileExtension)
      let s1 := { s with loadWarnings := s.loadWarnings ++ [warning] }
      match SetDataPath env s1 d (d.m_DataPathWithoutExtension ++ altFileExtension) with
      | .aborts f => .aborts f
      | .returns (s2, d2) => .returns (true, s2, d2)
    | none =>
      let errorMessage :=
        "Failed to find audio file with following path and name:\n\n".toList ++ d.m_DataPath
          ++ " or any alternative supported file type".toList
      if abortGameForInvalidSound then .aborts .soundNotFound
      else
        let line := errorMessage ++ ". The file was not loaded!".toList
        .returns (false, { s with console := s.console ++ [line] }, d)
  else .returns (true, s, d)

/-- The method `ContentFile::LoadAndReleaseSound`. The sample `createSound` leaves behind on an
error is null, as `returnSample` is before the call. -/
def LoadAndReleaseSound (env : Env) (s : State) (d : ContentFile)
    (abortGameForInvalidSound asyncLoading : Bool) : Outcome (Ptr × State × ContentFile) :=
  if d.m_DataPath = [] ∨ env.IsAudioEnabled = false then .returns (none, s, d)
  else
    match resolveSoundPath env s d abortGameForInvalidSound with
    | .aborts f => .aborts f
    | .returns (false, s1, d1) => .returns (none, s1, d1)
    | .returns (true, s1, d1) =>
      if env.PathExistsCaseSensitive d1.m_DataPath = false then .aborts .fileSizeError
      else if env.file_size d1.m_DataPath = 0 then
        let errorMessage :=
          "Failed to create sound because the file was empty. The path and name were: ".toList
        if abortGameForInvalidSound then .aborts .soundEmpty
        else
          let line := "ERROR: ".toList ++ errorMessage ++ d1.m_DataPath
          .returns (none, { s1 with console := s1.console ++ [line] }, d1)
      else
        let s2 := { s1 with soundLoads := s1.soundLoads ++ [(d1.m_DataPath, asyncLoading)] }
        match env.createSound d1.m_DataPath asyncLoading with
        | some fmodError =>
          let errorMessage := "Failed to create sound because of FMOD error:\n".toList
            ++ fmodError ++ "\nThe path and name were: ".toList
          if abortGameForInvalidSound then .aborts .soundCreateFailed
          else
            let line := "ERROR: ".toList ++ errorMessage ++ d1.m_DataPath
            .returns (none, { s2 with console := s2.console ++ [line] }, d1)
        | none => .returns (some s2.allocated, { s2 with allocated := s2.allocated + 1 }, d1)

/-- The method `ContentFile::GetAsSound`. -/
def GetAsSound (env : Env) (s : State) (d : ContentFile)
    (abortGameForInvalidSound asyncLoading : Bool) : Outcome (Ptr × State × ContentFile) :=
  if d.m_DataPath = [] ∨ env.IsAudioEnabled = false then .returns (none, s, d)
  else
    match find s.s_LoadedSamples d.m_DataPath with
    | some foundSound => .returns (foundSound, s, d)
    | none =>
      match LoadAndReleaseSound env s d abortGameForInvalidSound asyncLoading with
      | .aborts f => .aborts f
      | .returns (returnSample, s1, d1) =>
        .returns (returnSample,
          { s1 with s_LoadedSamples := try_emplace s1.s_LoadedSamples d1.m_DataPath returnSample },
          d1)

/-! ## Scenarios, invariants and reference definitions -/

/-- A fresh `ContentFile` (the constructor calls `Clear`). -/
def ContentFile.fresh : ContentFile := Clear ⟨[], [], [], [], [], 0⟩

/-- A `ContentFile` as `SetDataPath` leaves a fresh one for a path with the given parts. -/
def ContentFile.ofParts (withoutExtension ext : Str) (moduleID : Int) : ContentFile :=
  { ContentFile.fresh with m_DataPath := withoutExtension ++ ext, m_DataPathExtension := ext,
                           m_DataPathWithoutExtension := withoutExtension,
                           m_DataModuleID := moduleID }

/-- An environment with the given files on disk, all of them non-empty and decodable, audio
enabled, the audio formats `.wav`, `.ogg`, `.flac`, and Allegro's values of the constants. -/
def Env.ofDisk (files : List Str) : Env :=
  { PathExistsCaseSensitive := fun p => files.contains p,
    file_size := fun _ => 1024,
    load_bitmap := fun _ _ => true,
    bitmap_color_depth := fun mode _ => if mode = 8 then 32 else 8,
    createSound := fun _ _ => none,
    IsAudioEnabled := true,
    c_SupportedAudioFormats := [".wav".toList, ".ogg".toList, ".flac".toList],
    COLORCONV_8_TO_32 := 8,
    COLORCONV_MOST := 0xEEEE0,
    hash := fun p => p.length,
    GetModuleIDFromPath := fun _ => 0 }

/-- A disk that holds `a.bmp` and nothing else. -/
def diskWithBmp : Env := Env.ofDisk ["a.bmp".toList]

/-- A descriptor whose path has been set to `a.png`. -/
def aPng : ContentFile := ContentFile.ofParts "a".toList ".png".toList 0

/-- A descriptor whose path has been set to `a.bmp`. -/
def aBmp : ContentFile := ContentFile.ofParts "a".toList ".bmp".toList 0

/-- A descriptor for `a.bmp` after a request has refreshed its reader position. -/
def aBmpUsed : ContentFile := { aBmp with m_DataPathAndReaderPosition := "a.bmp\n".toList }

/-- The state after `a.bmp` has been decoded once, as 8 bit, and cached. -/
def bmpLoaded : State :=
  { State.initial with s_LoadedBitmaps := ⟨[("a.bmp".toList, some 0)], []⟩,
                       allocated := 1,
                       bitmapLoads := [(0xEEEE0, "a.bmp".toList)] }

/-- The state after a descriptor for `a.png` has been served from `a.bmp` (8 bit). -/
def bmpLoadedByFallback : State :=
  { bmpLoaded with s_PathHashes := [(5, "a.bmp".toList)],
                   loadWarnings := [("a.png".toList, [], ".bmp".toList)] }

/-- The state after a second descriptor for `a.png` has been served from `a.bmp` (8 bit). -/
def bmpLoadedTwice : State :=
  { bmpLoadedByFallback with
      allocated := 2,
      loadWarnings := [("a.png".toList, [], ".bmp".toList), ("a.png".toList, [], ".bmp".toList)],
      bitmapLoads := [(0xEEEE0, "a.bmp".toList), (0xEEEE0, "a.bmp".toList)] }

/-- The state after `a.bmp` has been decoded once with `COLORCONV_8_TO_32` and cached. -/
def bmpLoaded32 : State :=
  { State.initial with s_LoadedBitmaps := ⟨[], [("a.bmp".toList, some 0)]⟩,
                       s_GLTextures := [0],
                       allocated := 1,
                       bitmapLoads := [(8, "a.bmp".toList)] }

/-- The state after `a.bmp` has been decoded and cached for both depths. -/
def bmpLoadedBoth : State :=
  { bmpLoaded32 with s_LoadedBitmaps := ⟨[("a.bmp".toList, some 1)], [("a.bmp".toList, some 0)]⟩,
                     allocated := 2,
                     bitmapLoads := [(8, "a.bmp".toList), (0xEEEE0, "a.bmp".toList)] }

/-- The state after `a.bmp` has been decoded for a descriptor for `a.png`, without storing. -/
def bmpPeeked : State :=
  { bmpLoadedByFallback with s_LoadedBitmaps := ⟨[], []⟩ }

/-- A disk whose only file, `e.wav`, has no bytes. -/
def diskWithEmptyWav : Env := { Env.ofDisk ["e.wav".toList] with file_size := fun _ => 0 }

/-- A descriptor whose path has been set to `e.wav`. -/
def eWav : ContentFile := ContentFile.ofParts "e".toList ".wav".toList 0

/-- The console line `LoadAndReleaseSound` prints for a zero-byte file. -/
def emptySoundLine (path : Str) : Str :=
  "ERROR: ".toList
    ++ "Failed to create sound because the file was empty. The path and name were: ".toList
    ++ path

/-- The bitmap caches hold live allocations only, and no object is in both partitions: every
cached handle is an object allocated before, and what one partition maps a key to, the other
partition maps no key to. -/
def State.BitmapsFresh (s : State) : Prop :=
  (∀ depth key bitmap, find (s.s_LoadedBitmaps.get depth) key = some bitmap →
    ∃ n, bitmap = some n ∧ n < s.allocated) ∧
  (∀ key key2 bitmap, find (s.s_LoadedBitmaps.get .Eight) key = some bitmap →
    find (s.s_LoadedBitmaps.get .ThirtyTwo) key2 = some bitmap → False)

/-- The reading of the animation loop in the specification: the given frame paths are requested
from `GetAsBitmap` one after the other, with `storeBitmap = true`, and the handles are collected
in the order of the requests. -/
def requestFrames (env : Env) (conversionMode : Int) :
    List Str → State → ContentFile → Outcome (List Ptr × State × ContentFile)
  | [], s, d => .returns ([], s, d)
  | path :: paths, s, d =>
    match GetAsBitmap env s d conversionMode true path with
    | .aborts f => .aborts f
    | .returns (bitmap, s1, d1) =>
      match requestFrames env conversionMode paths s1 d1 with
      | .aborts f => .aborts f
      | .returns (bitmaps, s2, d2) => .returns (bitmap :: bitmaps, s2, d2)

/-- The frame path the specification names for a frame number: the path without extension, the
frame number padded to three digits, the extension. -/
def frameName (d : ContentFile) (frameNum : Nat) : Str :=
  d.m_DataPathWithoutExtension ++ pad3 frameNum ++ d.m_DataPathExtension

/-- A directory name of 254 characters, with its separator. -/
def longDir : Str := List.replicate 254 'd' ++ ['/']

/-- A path of 1024 characters without extension: the file `walk` four directories deep. -/
def longBase : Str := longDir ++ longDir ++ longDir ++ longDir ++ "walk".toList

/-- A descriptor whose path has been set to `longBase` with the extension `.png`. -/
def longPng : ContentFile := ContentFile.ofParts longBase ".png".toList 0

/-- A disk that holds the first two frames of `longPng`. -/
def diskWithLongFrames : Env :=
  Env.ofDisk [longBase ++ "000.png".toList, longBase ++ "001.png".toList]

/-- A disk that holds the frames `walk000.png`, `walk001.png` and `walk002.png`. -/
def diskWithWalk : Env :=
  Env.ofDisk ["walk000.png".toList, "walk001.png".toList, "walk002.png".toList]

/-- A descriptor whose path has been set to `walk.png`. -/
def walkPng : ContentFile := ContentFile.ofParts "walk".toList ".png".toList 0

/-- The path parts of a descriptor are those `SetDataPath` derives from its path: the path is
separator-normalized, the extension is the non-empty extension of the path, and the path
without extension is the rest. -/
def ContentFile.Consistent (d : ContentFile) : Prop :=
  CorrectBackslashesInPath d.m_DataPath = d.m_DataPath ∧
  d.m_DataPathExtension = extension d.m_DataPath ∧
  d.m_DataPathExtension ≠ [] ∧
  d.m_DataPathWithoutExtension
    = substr0 d.m_DataPath (sizeSub d.m_DataPath.length d.m_DataPathExtension.length)

instance (d : ContentFile) : Decidable d.Consistent := by
  unfold ContentFile.Consistent
  infer_instance

/-- A disk that holds `idle000.png` and nothing else. -/
def diskWithIdle : Env := Env.ofDisk ["idle000.png".toList]

/-- A descriptor whose path has been set to `idle.png`. -/
def idlePng : ContentFile := ContentFile.ofParts "idle".toList ".png".toList 0

/-- The state after the single frame of `idlePng` has been served from `idle000.png` (8 bit). -/
def idleLoaded : State :=
  { State.initial with s_LoadedBitmaps := ⟨[("idle000.png".toList, some 0)], []⟩,
                       s_PathHashes := [(11, "idle000.png".toList)],
                       allocated := 1,
                       bitmapLoads := [(0xEEEE0, "idle000.png".toList)] }

/-- The descriptor `idlePng` after its path has been rewritten to `idle000.png`. -/
def idle000Png : ContentFile :=
  { ContentFile.ofParts "idle000".toList ".png".toList 0 with
      m_DataPathAndReaderPosition := "idle000.png\n".toList }

/-- The state after the three frames of `walkPng` have been decoded (8 bit) and cached. -/
def walkLoaded : State :=
  { State.initial with
      s_LoadedBitmaps :=
        ⟨[("walk002.png".toList, some 2), ("walk001.png".toList, some 1),
          ("walk000.png".toList, some 0)], []⟩,
      allocated := 3,
      bitmapLoads := [(0xEEEE0, "walk000.png".toList), (0xEEEE0, "walk001.png".toList),
        (0xEEEE0, "walk002.png".toList)] }

/-- The descriptor `walkPng` after a request has refreshed its reader position. -/
def walkPngUsed : ContentFile :=
  { walkPng with m_DataPathAndReaderPosition := "walk.png\n".toList }

/-- A disk that holds `shot.ogg` and nothing else. -/
def diskWithOgg : Env := Env.ofDisk ["shot.ogg".toList]

/-- A descriptor whose path has been set to `shot.wav`. -/
def shotWav : ContentFile := ContentFile.ofParts "shot".toList ".wav".toList 0

/-- A descriptor whose path has been set to `shot.ogg`. -/
def shotOgg : ContentFile := ContentFile.ofParts "shot".toList ".ogg".toList 0

/-- The state after a descriptor for `shot.ogg` has got its sound. -/
def oggLoaded : State :=
  { State.initial with s_LoadedSamples := [("shot.ogg".toList, some 0)],
                       allocated := 1,
                       soundLoads := [("shot.ogg".toList, false)] }

/-- The state after a descriptor for `shot.wav` has then been served from `shot.ogg`. -/
def oggLoadedTwice : State :=
  { oggLoaded with s_PathHashes := [(8, "shot.ogg".toList)],
                   allocated := 2,
                   loadWarnings := [("shot.wav".toList, [], ".ogg".toList)],
                   soundLoads := [("shot.ogg".toList, false), ("shot.ogg".toList, false)] }

/-- A disk without any file. -/
def emptyDisk : Env := Env.ofDisk []

/-- A descriptor whose path has been set to `gone.wav`. -/
def goneWav : ContentFile := ContentFile.ofParts "gone".toList ".wav".toList 0

/-- The console line `LoadAndReleaseSound` prints when neither the file nor an alternative is
found. -/
def missingSoundLine (path : Str) : Str :=
  "Failed to find audio file with following path and name:\n\n".toList ++ path
    ++ " or any alternative supported file type".toList ++ ". The file was not loaded!".toList

/-- The state after `GetAsSound` without hard failure has not found `gone.wav`. -/
def goneCached : State :=
  { State.initial with s_LoadedSamples := [("gone.wav".toList, none)],
                       console := [missingSoundLine "gone.wav".toList] }

/-- The method `ContentFile::ReadProperty`, for a reader whose next property value is
`propValue`. The call `Serializable::ReadProperty` of the other branch is defined outside the
sources. It is the method of the base class, which reaches the members of a `ContentFile` only
through the virtual `SetFormattedReaderPosition`, so its effect is the parameter `base`: an
abort, or the return code, the state it leaves and the reader position it has set, if any. -/
def ReadProperty (env : Env) (s : State) (d : ContentFile) (propName propValue : Str)
    (base : State → Outcome (Int × State × Option Str)) : Outcome (Int × State × ContentFile) :=
  if propName = "FilePath".toList ∨ propName = "Path".toList then
    match SetDataPath env s d propValue with
    | .aborts f => .aborts f
    | .returns (s1, d1) => .returns (0, s1, d1)
  else
    match base s with
    | .aborts f => .aborts f
    | .returns (code, s1, none) => .returns (code, s1, d)
    | .returns (code, s1, some position) => .returns (code, s1, SetFormattedReaderPosition d position)

/-- Descriptor consistency as the specification states it: the path without extension followed
by the extension is the path, `GetHash` is the hash of the current path, and the extension is
not empty when the path is not. -/
def ContentFile.PathInvariant (env : Env) (d : ContentFile) : Prop :=
  d.m_DataPathWithoutExtension ++ d.m_DataPathExtension = d.m_DataPath ∧
  GetHash env d = env.hash d.m_DataPath ∧
  (d.m_DataPath ≠ [] → d.m_DataPathExtension ≠ [])

instance (env : Env) (d : ContentFile) : Decidable (d.PathInvariant env) := by
  unfold ContentFile.PathInvariant
  infer_instance

/-- Every entry of the image cache of the first state is an entry of the image cache of the
second state: the same partition maps the same key to the same handle. -/
def State.EntriesKept (s s1 : State) : Prop :=
  ∀ depth key bitmap, find (s.s_LoadedBitmaps.get depth) key = some bitmap →
    find (s1.s_LoadedBitmaps.get depth) key = some bitmap

/-- The state after frame 0 of `walkPng` has been decoded (8 bit) and cached. -/
def walkFirstLoaded : State :=
  { State.initial with
      s_LoadedBitmaps := ⟨[("walk000.png".toList, some 0)], []⟩,
      allocated := 1,
      bitmapLoads := [(0xEEEE0, "walk000.png".toList)] }

/-- A disk that holds `idle000.png` and nothing else, with a file `load_bitmap` cannot decode. -/
def diskWithCorruptIdle : Env :=
  { Env.ofDisk ["idle000.png".toList] with load_bitmap := fun _ _ => false }

/-! ## Theorems -/

theorem mem_of_lookup {c : Cache} {key : Str} {p : Ptr} (h : c.lookup key = some p) :
    p ∈ c.map Prod.snd := by
  induction c with
  | nil => simp at h
  | cons e c ih =>
    obtain ⟨k, v⟩ := e
    rw [List.lookup_cons] at h
    split at h
    · simp only [Option.some.injEq] at h
      simp [h]
    · simp [ih h]

theorem SetFormattedReaderPosition_path (d : ContentFile) (position : Str) :
    (SetFormattedReaderPosition d position).m_DataPath = d.m_DataPath := rfl

theorem SetFormattedReaderPosition_extension (d : ContentFile) (position : Str) :
    (SetFormattedReaderPosition d position).m_DataPathExtension = d.m_DataPathExtension := rfl

theorem SetFormattedReaderPosition_withoutExtension (d : ContentFile) (position : Str) :
    (SetFormattedReaderPosition d position).m_DataPathWithoutExtension
      = d.m_DataPathWithoutExtension := rfl

theorem SetFormattedReaderPosition_position (d : ContentFile) (position : Str) :
    (SetFormattedReaderPosition d position).m_FormattedReaderPosition = position := rfl

/-- C1, evaluated at a failing input. Only `a.bmp` is on disk and two descriptors hold the path
`a.png`. The first request resolves to `a.bmp`, decodes it and caches object 0 under `a.bmp`.
The second descriptor's request looks up `a.png`, misses, resolves to `a.bmp` and decodes it
again: it returns the new object 1 while the cache keeps object 0, and `load_bitmap` has been
called twice for `a.bmp`. -/
theorem GetAsBitmap_fallback_decodes_again :
    GetAsBitmap diskWithBmp State.initial aPng 0 true []
      = .returns (some 0, bmpLoadedByFallback, aBmpUsed) ∧
    GetAsBitmap diskWithBmp bmpLoadedByFallback aPng 0 true []
      = .returns (some 1, bmpLoadedTwice, aBmpUsed) ∧
    bmpLoadedTwice.bitmapLoads = [(0xEEEE0, "a.bmp".toList), (0xEEEE0, "a.bmp".toList)] ∧
    find (bmpLoadedTwice.s_LoadedBitmaps.get .Eight) "a.bmp".toList = some (some 0) :=
  ⟨by decide, by decide, by decide, by decide⟩

/-- C2, the claim fails: `a.bmp` is cached in the 8 bit partition; after `FreeAllLoaded` the
partition still holds it, and the next `GetAsBitmap` for it is a cache hit that returns the
destroyed object 0 and leaves the state as it is, so `load_bitmap` is not called again. -/
theorem FreeAllLoaded_keeps_entries_counterexample :
    find (bmpLoaded.s_LoadedBitmaps.get .Eight) "a.bmp".toList = some (some 0) ∧
    (FreeAllLoaded bmpLoaded).s_LoadedBitmaps.get .Eight = [("a.bmp".toList, some 0)] ∧
    some 0 ∈ (FreeAllLoaded bmpLoaded).destroyed ∧
    (FreeAllLoaded bmpLoaded).bitmapLoads = [(0xEEEE0, "a.bmp".toList)] ∧
    GetAsBitmap diskWithBmp (FreeAllLoaded bmpLoaded) aBmp 0 true []
      = .returns (some 0, FreeAllLoaded bmpLoaded, aBmpUsed) :=
  ⟨by decide, by decide, by decide, by decide, by decide⟩

/-- C2 as amended: `FreeAllLoaded` passes every cached bitmap to `destroy_bitmap` and leaves both
partitions as they are, so a `GetAsBitmap` that follows it for a cached path is a cache hit: it
returns the cached (destroyed) handle and changes nothing in the state, no decode included. -/
theorem FreeAllLoaded_then_GetAsBitmap_hits (env : Env) (s : State) (d : ContentFile)
    (conversionMode : Int) (storeBitmap : Bool) (frame : Str) (bitmap : Ptr)
    (hpath : d.m_DataPath ≠ [])
    (hcached : find (s.s_LoadedBitmaps.get (bitDepthOf env conversionMode))
      (if frame = [] then d.m_DataPath else frame) = some bitmap) :
    (FreeAllLoaded s).s_LoadedBitmaps = s.s_LoadedBitmaps ∧
    bitmap ∈ (FreeAllLoaded s).destroyed ∧
    (FreeAllLoaded s).bitmapLoads = s.bitmapLoads ∧
    GetAsBitmap env (FreeAllLoaded s) d conversionMode storeBitmap frame
      = .returns (bitmap, FreeAllLoaded s,
          SetFormattedReaderPosition d d.m_FormattedReaderPosition) := by
  refine ⟨rfl, ?_, rfl, ?_⟩
  · have hmem := mem_of_lookup hcached
    simp only [FreeAllLoaded, List.mem_append]
    cases hb : bitDepthOf env conversionMode <;> rw [hb] at hmem
    · exact Or.inl (Or.inr hmem)
    · exact Or.inr hmem
  · have hcached1 : find ((FreeAllLoaded s).s_LoadedBitmaps.get (bitDepthOf env conversionMode))
        (if frame = [] then d.m_DataPath else frame) = some bitmap := hcached
    simp only [GetAsBitmap, if_neg hpath, hcached1]

theorem FreeAllLoaded_then_GetAsBitmap_hits_witness :
    find (bmpLoaded.s_LoadedBitmaps.get (bitDepthOf diskWithBmp 0))
      (if ([] : Str) = [] then aBmp.m_DataPath else []) = some (some 0) ∧
    GetAsBitmap diskWithBmp (FreeAllLoaded bmpLoaded) aBmp 0 true []
      = .returns (some 0, FreeAllLoaded bmpLoaded,
          SetFormattedReaderPosition aBmp aBmp.m_FormattedReaderPosition) :=
  ⟨by decide,
   (FreeAllLoaded_then_GetAsBitmap_hits diskWithBmp bmpLoaded aBmp 0 true [] (some 0)
      (by decide) (by decide)).2.2.2⟩

/-- C3, the claim fails: `e.wav` exists and has no bytes; `GetAsSound` without hard failure
returns null, prints one line and calls no decoder, but the audio cache does not stay as it was:
the path is entered with the null handle. -/
theorem GetAsSound_empty_file_counterexample :
    State.initial.s_LoadedSamples = [] ∧
    diskWithEmptyWav.PathExistsCaseSensitive eWav.m_DataPath = true ∧
    diskWithEmptyWav.file_size eWav.m_DataPath = 0 ∧
    GetAsSound diskWithEmptyWav State.initial eWav false false
      = .returns (none,
          { State.initial with s_LoadedSamples := [("e.wav".toList, none)],
                               console := [emptySoundLine "e.wav".toList] }, eWav) :=
  ⟨rfl, by decide, by decide, by decide⟩

/-- C3 as amended: with audio enabled, for a descriptor whose non-empty, uncached path names an
existing zero-byte file, `GetAsSound` without hard failure returns null, prints one error line
and does not call the audio decoder; the one change to the audio cache is that the path is
entered with the null handle. -/
theorem GetAsSound_empty_file (env : Env) (s : State) (d : ContentFile) (asyncLoading : Bool)
    (haudio : env.IsAudioEnabled = true) (hpath : d.m_DataPath ≠ [])
    (hmiss : find s.s_LoadedSamples d.m_DataPath = none)
    (hexists : env.PathExistsCaseSensitive d.m_DataPath = true)
    (hsize : env.file_size d.m_DataPath = 0) :
    GetAsSound env s d false asyncLoading
      = .returns (none,
          { s with console := s.console ++ [emptySoundLine d.m_DataPath],
                   s_LoadedSamples := (d.m_DataPath, none) :: s.s_LoadedSamples }, d) := by
  have hmiss1 : List.lookup d.m_DataPath s.s_LoadedSamples = none := hmiss
  simp [GetAsSound, LoadAndReleaseSound, resolveSoundPath, hpath, haudio, hmiss, hexists, hsize,
    try_emplace, hmiss1, emptySoundLine]

theorem GetAsSound_empty_file_witness :
    GetAsSound diskWithEmptyWav State.initial eWav false true
      = .returns (none,
          { State.initial with console := State.initial.console ++ [emptySoundLine eWav.m_DataPath],
                               s_LoadedSamples := (eWav.m_DataPath, none) ::
                                 State.initial.s_LoadedSamples }, eWav) :=
  GetAsSound_empty_file diskWithEmptyWav State.initial eWav true (by decide) (by decide)
    (by decide) (by decide) (by decide)

/-! ### What the operations leave unchanged -/

theorem SetDataPath_returns {env : Env} {s s1 : State} {d d1 : ContentFile} {newDataPath : Str}
    (h : SetDataPath env s d newDataPath = .returns (s1, d1)) :
    extension (CorrectBackslashesInPath newDataPath) ≠ [] ∧
    s1 = { s with
      s_PathHashes :=
        assign s.s_PathHashes (env.hash (CorrectBackslashesInPath newDataPath))
          (CorrectBackslashesInPath newDataPath) } ∧
    d1 = { d with
      m_DataPath := CorrectBackslashesInPath newDataPath,
      m_DataPathExtension := extension (CorrectBackslashesInPath newDataPath),
      m_DataPathWithoutExtension :=
        substr0 (CorrectBackslashesInPath newDataPath)
          (sizeSub (CorrectBackslashesInPath newDataPath).length
            (extension (CorrectBackslashesInPath newDataPath)).length),
      m_DataModuleID := env.GetModuleIDFromPath (CorrectBackslashesInPath newDataPath) } := by
  unfold SetDataPath at h
  simp only [GetHash] at h
  split at h
  · cases h
  · rename_i hext
    simp only [Outcome.returns.injEq, Prod.mk.injEq] at h
    exact ⟨hext, h.1.symm, h.2.symm⟩

theorem LoadAndReleaseBitmap_returns {env : Env} {s s1 : State} {d d1 : ContentFile}
    {conversionMode : Int} {frame : Str} {bitmap : Ptr} (hpath : d.m_DataPath ≠ [])
    (h : LoadAndReleaseBitmap env s d conversionMode frame = .returns (bitmap, s1, d1)) :
    bitmap = some s.allocated ∧ s1.allocated = s.allocated + 1 ∧
    s1.s_LoadedBitmaps = s.s_LoadedBitmaps ∧ s1.s_LoadedSamples = s.s_LoadedSamples ∧
    s1.loadWarnings = s.loadWarnings ∧
    s1.bitmapLoads = s.bitmapLoads ++
      [(if conversionMode = 0 then env.COLORCONV_MOST else conversionMode,
        if frame = [] then d.m_DataPath else frame)] ∧
    d1 = SetFormattedReaderPosition d d.m_FormattedReaderPosition := by
  unfold LoadAndReleaseBitmap at h
  simp only [if_neg hpath] at h
  split_ifs at h <;> simp only [Outcome.returns.injEq, Prod.mk.injEq, reduceCtorEq] at h <;>
    (obtain ⟨hb, hs, hd⟩ := h; subst hb hs hd; simp [*])

theorem resolveBitmapPath_returns {env : Env} {s s1 : State} {d d1 : ContentFile}
    {dataPathToLoad pathToLoad : Str} (hpath : d.m_DataPath ≠ [])
    (h : resolveBitmapPath env s d dataPathToLoad = .returns (pathToLoad, s1, d1)) :
    s1.s_LoadedBitmaps = s.s_LoadedBitmaps ∧ s1.s_LoadedSamples = s.s_LoadedSamples ∧
    s1.allocated = s.allocated ∧ s1.bitmapLoads = s.bitmapLoads ∧ d1.m_DataPath ≠ [] := by
  simp only [resolveBitmapPath] at h
  split_ifs at h
  · split at h
    · cases h
    · rename_i s2 d2 hset
      simp only [Outcome.returns.injEq, Prod.mk.injEq] at h
      obtain ⟨-, hs, hd⟩ := h
      subst hs hd
      obtain ⟨hext, hs2, hd2⟩ := SetDataPath_returns hset
      subst hs2 hd2
      refine ⟨rfl, rfl, rfl, rfl, ?_⟩
      intro hnil
      apply hext
      simp only at hnil
      rw [hnil]
      decide
  · simp only [Outcome.returns.injEq, Prod.mk.injEq] at h
    obtain ⟨-, hs, hd⟩ := h
    subst hs hd
    exact ⟨rfl, rfl, rfl, rfl, hpath⟩

/-- What a `GetAsBitmap` that returns has done: either it hit the cache and left the state as
it was, or it missed, allocated the next object and, when asked to store, tried to enter it
into the partition of its conversion mode. -/
theorem GetAsBitmap_returns {env : Env} {s s1 : State} {d d1 : ContentFile}
    {conversionMode : Int} {storeBitmap : Bool} {frame : Str} {bitmap : Ptr}
    (hpath : d.m_DataPath ≠ [])
    (h : GetAsBitmap env s d conversionMode storeBitmap frame = .returns (bitmap, s1, d1)) :
    (find (s.s_LoadedBitmaps.get (bitDepthOf env conversionMode))
        (if frame = [] then d.m_DataPath else frame) = some bitmap ∧ s1 = s ∧
      d1 = SetFormattedReaderPosition d d.m_FormattedReaderPosition) ∨
    (find (s.s_LoadedBitmaps.get (bitDepthOf env conversionMode))
        (if frame = [] then d.m_DataPath else frame) = none ∧
      bitmap = some s.allocated ∧ s1.allocated = s.allocated + 1 ∧
      s1.s_LoadedSamples = s.s_LoadedSamples ∧
      ∃ resolved, s1.s_LoadedBitmaps =
        if storeBitmap then s.s_LoadedBitmaps.set (bitDepthOf env conversionMode)
          (try_emplace (s.s_LoadedBitmaps.get (bitDepthOf env conversionMode)) resolved bitmap)
        else s.s_LoadedBitmaps) := by
  unfold GetAsBitmap at h
  simp only [if_neg hpath] at h
  split at h
  · rename_i b hfind
    simp only [Outcome.returns.injEq, Prod.mk.injEq] at h
    obtain ⟨hb, hs, hd⟩ := h
    subst hb hs hd
    exact Or.inl ⟨hfind, rfl, rfl⟩
  · rename_i hfind
    right
    split at h
    · cases h
    · rename_i pathToLoad s2 d2 hres
      split at h
      · cases h
      · rename_i b s3 d3 hload
        have hpath1 : (SetFormattedReaderPosition d d.m_FormattedReaderPosition).m_DataPath ≠ [] :=
          hpath
        obtain ⟨hbm2, hsm2, hal2, -, hpath2⟩ := resolveBitmapPath_returns hpath1 hres
        obtain ⟨hb, hal3, hbm3, hsm3, -, -, -⟩ := LoadAndReleaseBitmap_returns hpath2 hload
        simp only [Outcome.returns.injEq, Prod.mk.injEq] at h
        obtain ⟨hb1, hs1, -⟩ := h
        subst hb1 hs1
        refine ⟨hfind, by rw [hb, hal2], ?_, ?_, pathToLoad, ?_⟩
        · split <;> simp [hal3, hal2]
        · split <;> simp [hsm3, hsm2]
        · split <;> simp [hbm3, hbm2]

theorem LoadedBitmaps.get_set_of_ne (m : LoadedBitmaps) {a b : BitDepths} (c : Cache)
    (hab : a ≠ b) : (m.set a c).get b = m.get b := by
  cases a <;> cases b <;> first | exact absurd rfl hab | rfl

theorem LoadedBitmaps.get_set_self (m : LoadedBitmaps) (a : BitDepths) (c : Cache) :
    (m.set a c).get a = c := by
  cases a <;> rfl

theorem find_try_emplace {c : Cache} {key key2 : Str} {value bitmap : Ptr}
    (h : find (try_emplace c key value) key2 = some bitmap) :
    find c key2 = some bitmap ∨ bitmap = value := by
  unfold try_emplace at h
  split at h
  · exact Or.inl h
  · unfold find at h
    rw [List.lookup_cons] at h
    split at h
    · simp only [Option.some.injEq] at h
      exact Or.inr h.symm
    · exact Or.inl h

theorem find_try_emplace_of_miss {c : Cache} {key : Str} (value : Ptr)
    (h : find c key = none) : find (try_emplace c key value) key = some value := by
  have h1 : List.lookup key c = none := h
  simp [try_emplace, h1, find]

/-- A request whose path is cached is served from the cache: the cached handle is returned and
the state stays as it is. -/
theorem GetAsBitmap_hit (env : Env) (s : State) (d : ContentFile) (conversionMode : Int)
    (storeBitmap : Bool) (frame : Str) (bitmap : Ptr) (hpath : d.m_DataPath ≠ [])
    (hfind : find (s.s_LoadedBitmaps.get (bitDepthOf env conversionMode))
      (if frame = [] then d.m_DataPath else frame) = some bitmap) :
    GetAsBitmap env s d conversionMode storeBitmap frame
      = .returns (bitmap, s, SetFormattedReaderPosition d d.m_FormattedReaderPosition) := by
  simp only [GetAsBitmap, if_neg hpath, hfind]

/-- The invariant `BitmapsFresh` is kept by every `GetAsBitmap` that returns. -/
theorem GetAsBitmap_keeps_bitmapsFresh {env : Env} {s s1 : State} {d d1 : ContentFile}
    {conversionMode : Int} {storeBitmap : Bool} {frame : Str} {bitmap : Ptr}
    (hfresh : s.BitmapsFresh)
    (h : GetAsBitmap env s d conversionMode storeBitmap frame = .returns (bitmap, s1, d1)) :
    s1.BitmapsFresh := by
  by_cases hpath : d.m_DataPath = []
  · simp only [GetAsBitmap, if_pos hpath, Outcome.returns.injEq, Prod.mk.injEq] at h
    rw [← h.2.1]
    exact hfresh
  · rcases GetAsBitmap_returns hpath h with ⟨-, hs, -⟩ | ⟨-, hb, hal, -, r, hr⟩
    · rw [hs]
      exact hfresh
    · obtain ⟨hlive, hdisj⟩ := hfresh
      cases storeBitmap with
      | false =>
        simp only [Bool.false_eq_true, if_false] at hr
        constructor
        · intro depth key bm hf
          rw [hr] at hf
          obtain ⟨n, hn, hlt⟩ := hlive depth key bm hf
          exact ⟨n, hn, by omega⟩
        · intro key key2 bm h8 h32
          rw [hr] at h8 h32
          exact hdisj key key2 bm h8 h32
      | true =>
        simp only [if_true] at hr
        have hold : ∀ depth key bm, find (s1.s_LoadedBitmaps.get depth) key = some bm →
            find (s.s_LoadedBitmaps.get depth) key = some bm ∨
              (depth = bitDepthOf env conversionMode ∧ bm = some s.allocated) := by
          intro depth key bm hf
          rw [hr] at hf
          by_cases hdep : bitDepthOf env conversionMode = depth
          · subst hdep
            rw [LoadedBitmaps.get_set_self] at hf
            rcases find_try_emplace hf with h1 | h1
            · exact Or.inl h1
            · exact Or.inr ⟨rfl, by rw [h1, hb]⟩
          · rw [LoadedBitmaps.get_set_of_ne _ _ hdep] at hf
            exact Or.inl hf
        constructor
        · intro depth key bm hf
          rcases hold depth key bm hf with h1 | ⟨-, h1⟩
          · obtain ⟨n, hn, hlt⟩ := hlive depth key bm h1
            exact ⟨n, hn, by omega⟩
          · exact ⟨s.allocated, h1, by omega⟩
        · intro key key2 bm h8 h32
          rcases hold _ key bm h8 with h1 | ⟨hd1, h1⟩ <;>
            rcases hold _ key2 bm h32 with h2 | ⟨hd2, h2⟩
          · exact hdisj key key2 bm h1 h2
          · obtain ⟨n, hn, hlt⟩ := hlive _ key bm h1
            rw [hn] at h2
            simp only [Option.some.injEq] at h2
            omega
          · obtain ⟨n, hn, hlt⟩ := hlive _ key2 bm h2
            rw [hn] at h1
            simp only [Option.some.injEq] at h1
            omega
          · rw [← hd1] at hd2
            cases hd2

/-- Without a fallback the cache deduplicates: when the requested path is on disk, the handle a
storing request returns is what every later request for that path gets, from whichever
descriptor, as a cache hit that leaves the state as it is. -/
theorem GetAsBitmap_repeat_of_exists {env : Env} {s s1 : State} {d d1 : ContentFile}
    (d2 : ContentFile) {conversionMode : Int} (storeBitmap : Bool) {frame : Str} {bitmap : Ptr}
    (hpath : d.m_DataPath ≠ []) (hpath2 : d2.m_DataPath ≠ [])
    (hsame : d2.m_DataPath = d.m_DataPath)
    (hexists : env.PathExistsCaseSensitive (if frame = [] then d.m_DataPath else frame) = true)
    (h : GetAsBitmap env s d conversionMode true frame = .returns (bitmap, s1, d1)) :
    GetAsBitmap env s1 d2 conversionMode storeBitmap frame
      = .returns (bitmap, s1, SetFormattedReaderPosition d2 d2.m_FormattedReaderPosition) := by
  apply GetAsBitmap_hit env s1 d2 conversionMode storeBitmap frame bitmap hpath2
  rw [hsame]
  unfold GetAsBitmap at h
  simp only [if_neg hpath] at h
  split at h
  · rename_i b hfind
    simp only [Outcome.returns.injEq, Prod.mk.injEq] at h
    obtain ⟨hb, hs, -⟩ := h
    subst hb hs
    exact hfind
  · rename_i hfind
    have hres : resolveBitmapPath env s (SetFormattedReaderPosition d d.m_FormattedReaderPosition)
        (if frame = [] then d.m_DataPath else frame)
        = .returns (if frame = [] then d.m_DataPath else frame, s,
            SetFormattedReaderPosition d d.m_FormattedReaderPosition) := by
      simp [resolveBitmapPath, hexists]
    rw [hres] at h
    simp only at h
    split at h
    · cases h
    · rename_i b s3 d3 hload
      have hpath1 : (SetFormattedReaderPosition d d.m_FormattedReaderPosition).m_DataPath ≠ [] :=
        hpath
      obtain ⟨-, -, hbm, -, -, -, -⟩ := LoadAndReleaseBitmap_returns hpath1 hload
      simp only [if_true, Outcome.returns.injEq, Prod.mk.injEq] at h
      obtain ⟨hb, hs1, -⟩ := h
      subst hb hs1
      simp only [LoadedBitmaps.get_set_self]
      rw [hbm]
      exact find_try_emplace_of_miss _ hfind

/-- C4 as amended: two requests whose conversion modes select different partitions, that is,
exactly one of the modes is `COLORCONV_8_TO_32`, never alias, whatever the descriptors and frame
paths (the same path included): the first request leaves the partition of the second as it was,
and in a state whose caches hold live allocations only the two returned handles differ. -/
theorem GetAsBitmap_depths_never_alias (env : Env) (s s1 s2 : State) (dA dA1 dB dB1 : ContentFile)
    (m1 m2 : Int) (store1 store2 : Bool) (frame1 frame2 : Str) (b1 b2 : Ptr)
    (hfresh : s.BitmapsFresh) (hA : dA.m_DataPath ≠ []) (hB : dB.m_DataPath ≠ [])
    (hmodes : (m1 = env.COLORCONV_8_TO_32 ∧ m2 ≠ env.COLORCONV_8_TO_32) ∨
      (m1 ≠ env.COLORCONV_8_TO_32 ∧ m2 = env.COLORCONV_8_TO_32))
    (h1 : GetAsBitmap env s dA m1 store1 frame1 = .returns (b1, s1, dA1))
    (h2 : GetAsBitmap env s1 dB m2 store2 frame2 = .returns (b2, s2, dB1)) :
    bitDepthOf env m1 ≠ bitDepthOf env m2 ∧
    s1.s_LoadedBitmaps.get (bitDepthOf env m2) = s.s_LoadedBitmaps.get (bitDepthOf env m2) ∧
    b1 ≠ b2 := by
  have hne : bitDepthOf env m1 ≠ bitDepthOf env m2 := by
    rcases hmodes with ⟨ha, hb⟩ | ⟨ha, hb⟩ <;> simp [bitDepthOf, ha, hb]
  obtain ⟨hlive, hdisj⟩ := hfresh
  have hkeep : s1.s_LoadedBitmaps.get (bitDepthOf env m2)
      = s.s_LoadedBitmaps.get (bitDepthOf env m2) := by
    rcases GetAsBitmap_returns hA h1 with ⟨-, hs, -⟩ | ⟨-, -, -, -, r, hr⟩
    · rw [hs]
    · rw [hr]
      split
      · exact LoadedBitmaps.get_set_of_ne _ _ hne
      · rfl
  refine ⟨hne, hkeep, ?_⟩
  rcases GetAsBitmap_returns hA h1 with ⟨hf1, hs, -⟩ | ⟨-, hb1, hal, -, -⟩
  · subst hs
    obtain ⟨n1, hn1, hlt1⟩ := hlive _ _ _ hf1
    rcases GetAsBitmap_returns hB h2 with ⟨hf2, -, -⟩ | ⟨-, hb2, -, -, -⟩
    · intro heq
      subst heq
      cases hd1 : bitDepthOf env m1 <;> cases hd2 : bitDepthOf env m2 <;>
        rw [hd1] at hf1 hne <;> rw [hd2] at hf2 hne
      · exact hne rfl
      · exact hdisj _ _ _ hf1 hf2
      · exact hdisj _ _ _ hf2 hf1
      · exact hne rfl
    · rw [hn1, hb2]
      intro heq
      simp only [Option.some.injEq] at heq
      omega
  · rcases GetAsBitmap_returns hB h2 with ⟨hf2, -, -⟩ | ⟨-, hb2, -, -, -⟩
    · rw [hkeep] at hf2
      obtain ⟨n2, hn2, hlt2⟩ := hlive _ _ _ hf2
      rw [hb1, hn2]
      intro heq
      simp only [Option.some.injEq] at heq
      omega
    · rw [hb1, hb2, hal]
      intro heq
      simp only [Option.some.injEq] at heq
      omega

/-- C10: a `GetAsBitmap` that is told not to store and returns leaves both partitions of the
image cache exactly as they were, whether it hit the cache, decoded the path itself or decoded
a fallback path. -/
theorem GetAsBitmap_without_store_keeps_caches (env : Env) (s s1 : State) (d d1 : ContentFile)
    (conversionMode : Int) (frame : Str) (bitmap : Ptr)
    (h : GetAsBitmap env s d conversionMode false frame = .returns (bitmap, s1, d1)) :
    s1.s_LoadedBitmaps = s.s_LoadedBitmaps := by
  by_cases hpath : d.m_DataPath = []
  · simp only [GetAsBitmap, if_pos hpath, Outcome.returns.injEq, Prod.mk.injEq] at h
    rw [← h.2.1]
  · rcases GetAsBitmap_returns hpath h with ⟨-, hs, -⟩ | ⟨-, -, -, -, r, hr⟩
    · rw [hs]
    · simpa using hr

theorem State.initial_bitmapsFresh : State.initial.BitmapsFresh := by
  constructor
  · intro depth key bitmap h
    cases depth <;> simp [State.initial, LoadedBitmaps.get, find] at h
  · intro key key2 bitmap h
    simp [State.initial, LoadedBitmaps.get, find] at h

theorem GetAsBitmap_depths_never_alias_witness :
    bitDepthOf diskWithBmp 8 ≠ bitDepthOf diskWithBmp 0 ∧
    bmpLoaded32.s_LoadedBitmaps.get (bitDepthOf diskWithBmp 0)
      = State.initial.s_LoadedBitmaps.get (bitDepthOf diskWithBmp 0) ∧
    (some 0 : Ptr) ≠ some 1 :=
  GetAsBitmap_depths_never_alias diskWithBmp State.initial bmpLoaded32 bmpLoadedBoth
    aBmp aBmpUsed aBmp aBmpUsed 8 0 true true [] [] (some 0) (some 1)
    State.initial_bitmapsFresh (by decide) (by decide) (Or.inl ⟨by decide, by decide⟩)
    (by decide) (by decide)

/-- C4, the claim fails: the conversion modes 0 and 1 differ, but neither is
`COLORCONV_8_TO_32`, so both select the 8 bit partition; the bitmap stored by the request with
mode 0 is what the request with mode 1 gets back as a cache hit, the same handle. -/
theorem GetAsBitmap_modes_share_partition_counterexample :
    (0 : Int) ≠ 1 ∧ bitDepthOf diskWithBmp 0 = bitDepthOf diskWithBmp 1 ∧
    GetAsBitmap diskWithBmp State.initial aBmp 0 true [] = .returns (some 0, bmpLoaded, aBmpUsed) ∧
    GetAsBitmap diskWithBmp bmpLoaded aBmp 1 true [] = .returns (some 0, bmpLoaded, aBmpUsed) :=
  ⟨by decide, by decide, by decide, by decide⟩

theorem GetAsBitmap_without_store_keeps_caches_witness :
    bmpPeeked.s_LoadedBitmaps = State.initial.s_LoadedBitmaps :=
  GetAsBitmap_without_store_keeps_caches diskWithBmp State.initial bmpPeeked aPng aBmpUsed 0 []
    (some 0) (by decide)

/-! ### The extension of a path -/

theorem takeWhile_reverse_append (q : Char → Bool) (a b : Str) (hb : ∀ c ∈ b, q c = true) :
    (a ++ b).reverse.takeWhile q = b.reverse ++ a.reverse.takeWhile q := by
  rw [List.reverse_append]
  exact List.takeWhile_append_of_pos (fun c hc => hb c (List.mem_reverse.mp hc))

theorem takeWhile_reverse_stop (q : Char → Bool) (a b : Str) (x : Char) (hx : q x = false)
    (hb : ∀ c ∈ b, q c = true) : (a ++ x :: b).reverse.takeWhile q = b.reverse := by
  have h : a ++ x :: b = (a ++ [x]) ++ b := by simp
  rw [h, takeWhile_reverse_append q _ b hb, List.reverse_append]
  simp [List.takeWhile_cons, hx]

theorem filename_append (a b : Str) (hb : ∀ c ∈ b, c ≠ '/') :
    filename (a ++ b) = filename a ++ b := by
  unfold filename
  rw [takeWhile_reverse_append _ a b (by simpa using hb)]
  simp

theorem filename_no_slash (p : Str) : ∀ c ∈ filename p, c ≠ '/' := by
  intro c hc
  have h := List.mem_takeWhile_imp (List.mem_reverse.mp hc)
  simpa using h

/-- A path splits into what precedes its filename and the filename, and what precedes has no
filename of its own (it is empty or ends in the separator). -/
theorem filename_split (p : Str) :
    ∃ dir, p = dir ++ filename p ∧ filename dir = [] := by
  refine ⟨(p.reverse.dropWhile (fun c => c != '/')).reverse, ?_, ?_⟩
  · unfold filename
    rw [← List.reverse_append, List.takeWhile_append_dropWhile, List.reverse_reverse]
  · unfold filename
    rw [List.reverse_reverse]
    cases hd : p.reverse.dropWhile (fun c => c != '/') with
    | nil => rfl
    | cons x xs =>
      have hx := List.head_dropWhile_not (fun c => c != '/') p.reverse (by simp [hd])
      simp only [hd, List.head_cons] at hx
      simp [List.takeWhile_cons, hx]

/-- The extension of a path whose filename is `g ++ '.' :: tail` with no `.` in `tail`. -/
theorem extension_of_filename (p g tail : Str) (hf : filename p = g ++ '.' :: tail)
    (htail : ∀ c ∈ tail, c ≠ '.') :
    extension p = if g = [] ∨ (g = ['.'] ∧ tail = []) then [] else '.' :: tail := by
  have hafter : (filename p).reverse.takeWhile (fun c => c != '.') = tail.reverse := by
    rw [hf]
    exact takeWhile_reverse_stop _ g tail '.' (by decide) (by simpa using htail)
  unfold extension
  simp only [hafter, List.reverse_reverse]
  simp only [hf, List.length_append, List.length_cons]
  cases g with
  | nil =>
    cases tail with
    | nil => simp
    | cons t ts => simp
  | cons a g =>
    cases g with
    | nil =>
      cases tail with
      | nil =>
        by_cases ha : a = '.'
        · simp [ha]
        · simp [ha]
      | cons t ts => simp; omega
    | cons b g => simp; omega

/-- A non-empty extension starts at the last `.` of the path: the path is `stem ++ '.' :: tail`,
with no `.` and no separator in `tail`, and the extension is `'.' :: tail`. -/
theorem extension_split (p : Str) (h : extension p ≠ []) :
    ∃ stem tail, p = stem ++ '.' :: tail ∧ (∀ c ∈ tail, c ≠ '.') ∧ (∀ c ∈ tail, c ≠ '/') ∧
      extension p = '.' :: tail ∧ filename stem ≠ [] ∧ ¬(filename stem = ['.'] ∧ tail = []) := by
  obtain ⟨dir, hp, hdir⟩ := filename_split p
  have hslash := filename_no_slash p
  cases hd : (filename p).reverse.dropWhile (fun c => c != '.') with
  | nil =>
    exfalso
    apply h
    have hall : (filename p).reverse.takeWhile (fun c => c != '.') = (filename p).reverse := by
      have := List.takeWhile_append_dropWhile (fun c => c != '.') (filename p).reverse
      rw [hd, List.append_nil] at this
      exact this
    unfold extension
    simp [hall]
  | cons x xs =>
    have hx := List.head_dropWhile_not (fun c => c != '.') (filename p).reverse (by simp [hd])
    simp only [hd, List.head_cons, bne_eq_false_iff_eq] at hx
    subst hx
    have hf : filename p = xs.reverse ++ '.' ::
        ((filename p).reverse.takeWhile (fun c => c != '.')).reverse := by
      have := List.takeWhile_append_dropWhile (fun c => c != '.') (filename p).reverse
      rw [hd] at this
      have h2 := congrArg List.reverse this
      simp only [List.reverse_append, List.reverse_cons, List.reverse_reverse,
        List.append_assoc, List.singleton_append] at h2
      exact h2.symm
    have htail : ∀ c ∈ ((filename p).reverse.takeWhile (fun c => c != '.')).reverse, c ≠ '.' := by
      intro c hc
      have := List.mem_takeWhile_imp (List.mem_reverse.mp hc)
      simpa using this
    have hext := extension_of_filename p _ _ hf htail
    have hstem : ¬(xs.reverse = [] ∨ (xs.reverse = ['.'] ∧
        ((filename p).reverse.takeWhile (fun c => c != '.')).reverse = [])) := by
      intro hc
      rw [if_pos hc] at hext
      exact h hext
    rw [if_neg hstem] at hext
    have hxs : ∀ c ∈ xs.reverse, c ≠ '/' := by
      intro c hc
      apply hslash
      rw [hf]
      exact List.mem_append_left _ hc
    refine ⟨dir ++ xs.reverse, _, ?_, htail, ?_, hext, ?_, ?_⟩
    · rw [List.append_assoc, ← hf]
      exact hp
    · intro c hc
      apply hslash
      rw [hf]
      exact List.mem_append_right _ (List.mem_cons_of_mem _ hc)
    · rw [filename_append _ _ hxs, hdir]
      exact fun hc => hstem (Or.inl hc)
    · rw [filename_append _ _ hxs, hdir]
      exact fun hc => hstem (Or.inr hc)

/-- The extension of `stem ++ '.' :: tail` is `'.' :: tail` when `tail` has no `.` and no
separator, the filename of `stem` is not empty, and the whole filename is not `..`. -/
theorem extension_append (stem tail : Str) (hdot : ∀ c ∈ tail, c ≠ '.')
    (hslash : ∀ c ∈ tail, c ≠ '/') (hstem : filename stem ≠ [])
    (hdots : ¬(filename stem = ['.'] ∧ tail = [])) :
    extension (stem ++ '.' :: tail) = '.' :: tail := by
  have hf : filename (stem ++ '.' :: tail) = filename stem ++ '.' :: tail := by
    apply filename_append
    intro c hc
    rcases List.mem_cons.mp hc with hc | hc
    · rw [hc]; decide
    · exact hslash c hc
  rw [extension_of_filename _ _ _ hf hdot, if_neg]
  exact fun hc => hc.elim hstem hdots

/-- A path has no extension exactly when no split `stem ++ '.' :: tail` at a last `.` that lies
in the filename leaves a filename before the `.` (other than the one of `..`). -/
theorem extension_eq_nil_iff (p : Str) :
    extension p = [] ↔
      ∀ stem tail, p = stem ++ '.' :: tail → (∀ c ∈ tail, c ≠ '.') → (∀ c ∈ tail, c ≠ '/') →
        filename stem = [] ∨ (filename stem = ['.'] ∧ tail = []) := by
  constructor
  · intro h stem tail hp hdot hslash
    by_contra hc
    rw [not_or] at hc
    have := extension_append stem tail hdot hslash hc.1 hc.2
    rw [← hp, h] at this
    cases this
  · intro h
    by_contra hne
    obtain ⟨stem, tail, hp, hdot, hslash, -, hstem, hdots⟩ := extension_split p hne
    rcases h stem tail hp hdot hslash with h1 | h1
    · exact hstem h1
    · exact hdots h1

/-- Paths without an extension although they contain a `.`: the `.` is in a directory name, or
it leads the filename, or the filename is `..`; and paths with one. -/
theorem extension_examples :
    extension "x".toList = [] ∧ extension "Base.rte/x".toList = [] ∧
    extension ".png".toList = [] ∧ extension "Base.rte/..".toList = [] ∧
    extension "x.png".toList = ".png".toList ∧
    extension "Base.rte/x.tar.gz".toList = ".gz".toList ∧
    extension "x.".toList = ".".toList := by
  decide

theorem substr0_sizeSub (stem ext : Str) :
    substr0 (stem ++ ext) (sizeSub (stem ++ ext).length ext.length) = stem := by
  have hle : ext.length ≤ (stem ++ ext).length := by simp
  have hlen : (stem ++ ext).length - ext.length = stem.length := by simp
  rw [sizeSub, if_pos hle, hlen, substr0, List.take_left]

/-- C5: `SetDataPath` aborts exactly when the separator-normalized path has no extension;
otherwise it returns with the path set to the normalized path, split at its last `.`: the
extension is that `.` with all that follows it (no further `.`), and the path without extension
is all that precedes it. -/
theorem SetDataPath_splits_at_last_dot (env : Env) (s : State) (d : ContentFile) (raw : Str) :
    (SetDataPath env s d raw = .aborts .noFileExtension ↔
      extension (CorrectBackslashesInPath raw) = []) ∧
    (extension (CorrectBackslashesInPath raw) ≠ [] →
      ∃ s1 d1 tail, SetDataPath env s d raw = .returns (s1, d1) ∧
        d1.m_DataPath = CorrectBackslashesInPath raw ∧
        (∀ c ∈ tail, c ≠ '.') ∧
        d1.m_DataPathExtension = '.' :: tail ∧
        CorrectBackslashesInPath raw = d1.m_DataPathWithoutExtension ++ '.' :: tail) := by
  constructor
  · constructor
    · intro h
      by_contra hext
      simp [SetDataPath, hext] at h
    · intro hext
      simp [SetDataPath, hext]
  · intro hext
    obtain ⟨stem, tail, hp, hdot, -, hsplit, -, -⟩ := extension_split _ hext
    refine ⟨_, _, tail, by simp only [SetDataPath, if_neg hext]; rfl, rfl, hdot, hsplit, ?_⟩
    show CorrectBackslashesInPath raw
      = substr0 (CorrectBackslashesInPath raw) (sizeSub (CorrectBackslashesInPath raw).length
          (extension (CorrectBackslashesInPath raw)).length) ++ '.' :: tail
    rw [hsplit]
    conv_rhs => rw [hp]
    rw [substr0_sizeSub stem ('.' :: tail)]
    exact hp

theorem SetDataPath_splits_at_last_dot_witness :
    SetDataPath diskWithBmp State.initial ContentFile.fresh "x".toList
      = .aborts .noFileExtension ∧
    ∃ s1 d1 tail, SetDataPath diskWithBmp State.initial ContentFile.fresh "x.png".toList
        = .returns (s1, d1) ∧
      d1.m_DataPath = CorrectBackslashesInPath "x.png".toList ∧
      (∀ c ∈ tail, c ≠ '.') ∧
      d1.m_DataPathExtension = '.' :: tail ∧
      CorrectBackslashesInPath "x.png".toList = d1.m_DataPathWithoutExtension ++ '.' :: tail :=
  ⟨(SetDataPath_splits_at_last_dot diskWithBmp State.initial ContentFile.fresh "x".toList).1.mpr
      (by decide),
   (SetDataPath_splits_at_last_dot diskWithBmp State.initial ContentFile.fresh "x.png".toList).2
      (by decide)⟩

/-! ### Animations -/

theorem pad3_ne_nil (n : Nat) : pad3 n ≠ [] := by
  unfold pad3
  intro h
  have hlen := congrArg List.length h
  simp only [List.length_append, List.length_replicate, List.length_nil] at hlen
  omega

/-- A request for a path that is on disk and decodes returns, and leaves the path of the
descriptor and its parts as they were. -/
theorem GetAsBitmap_of_exists (env : Env) (s : State) (d : ContentFile) (conversionMode : Int)
    (storeBitmap : Bool) (frame : Str) (hpath : d.m_DataPath ≠ [])
    (hexists : env.PathExistsCaseSensitive (if frame = [] then d.m_DataPath else frame) = true)
    (hdecode : env.load_bitmap (if conversionMode = 0 then env.COLORCONV_MOST else conversionMode)
      (if frame = [] then d.m_DataPath else frame) = true) :
    ∃ bitmap s1, GetAsBitmap env s d conversionMode storeBitmap frame
      = .returns (bitmap, s1, SetFormattedReaderPosition d d.m_FormattedReaderPosition) := by
  have hkey : (if frame = [] then d.m_DataPath else frame) ≠ [] := by
    split
    · exact hpath
    · assumption
  unfold GetAsBitmap
  simp only [if_neg hpath]
  split
  · exact ⟨_, _, rfl⟩
  · have hres : resolveBitmapPath env s (SetFormattedReaderPosition d d.m_FormattedReaderPosition)
        (if frame = [] then d.m_DataPath else frame)
        = .returns (if frame = [] then d.m_DataPath else frame, s,
            SetFormattedReaderPosition d d.m_FormattedReaderPosition) := by
      simp [resolveBitmapPath, hexists]
    have hpath1 : (SetFormattedReaderPosition d d.m_FormattedReaderPosition).m_DataPath ≠ [] :=
      hpath
    simp only [hres, LoadAndReleaseBitmap, if_neg hpath1, if_neg hkey, hdecode]
    exact ⟨_, _, rfl⟩

theorem animationLoop_frames (env : Env) (conversionMode : Int) (base : ContentFile) :
    ∀ (n i : Nat) (s : State) (d : ContentFile) (vectorToFill : List Ptr),
      d.m_DataPathWithoutExtension = base.m_DataPathWithoutExtension →
      d.m_DataPathExtension = base.m_DataPathExtension →
      d.m_DataPath ≠ [] →
      (∀ j, i ≤ j → j < i + n → (frameName base j).length ≤ 1023 ∧
        env.PathExistsCaseSensitive (frameName base j) = true ∧
        env.load_bitmap (if conversionMode = 0 then env.COLORCONV_MOST else conversionMode)
          (frameName base j) = true) →
      ∃ frames s1 d1,
        animationLoop env conversionMode n i s d vectorToFill
          = .returns (vectorToFill ++ frames, s1, d1) ∧
        frames.length = n ∧
        requestFrames env conversionMode ((List.range' i n).map (frameName base)) s d
          = .returns (frames, s1, d1) := by
  intro n
  induction n with
  | zero =>
    intro i s d vectorToFill _ _ _ _
    exact ⟨[], s, d, by simp [animationLoop], rfl, by simp [requestFrames]⟩
  | succ n ih =>
    intro i s d vectorToFill hwe hext hpath hframes
    obtain ⟨hfit, hexists, hdecode⟩ := hframes i (Nat.le_refl i) (by omega)
    have hname : framePath d i = frameName base i := by
      unfold framePath
      rw [hwe, hext]
      exact List.take_of_length_le hfit
    have hne : frameName base i ≠ [] := by
      unfold frameName
      intro h
      have h1 := List.append_eq_nil.mp h
      have h2 := List.append_eq_nil.mp h1.1
      exact pad3_ne_nil i h2.2
    obtain ⟨bitmap, s1, hget⟩ :=
      GetAsBitmap_of_exists env s d conversionMode true (frameName base i) hpath
        (by rw [if_neg hne]; exact hexists) (by rw [if_neg hne]; exact hdecode)
    obtain ⟨frames, s2, d2, hloop, hlen, hreq⟩ :=
      ih (i + 1) s1 (SetFormattedReaderPosition d d.m_FormattedReaderPosition)
        (vectorToFill ++ [bitmap]) hwe hext hpath
        (fun j hj1 hj2 => hframes j (by omega) (by omega))
    refine ⟨bitmap :: frames, s2, d2, ?_, by simp [hlen], ?_⟩
    · simp only [animationLoop, hname, hget, hloop, List.append_assoc, List.singleton_append]
    · simp only [List.range'_succ, List.map_cons, requestFrames, hget, hreq]

/-- C6 as amended: for a frame count above 1 and a descriptor with a non-empty path whose frame
paths fit the 1024-byte buffer of `GetAsAnimation` (at most 1023 characters each) and name
files that exist and decode, `GetAsAnimation` returns, appends exactly `frameCount` handles to
the output sequence, and these are, in order, what `GetAsBitmap` with `storeBitmap = true`
returns for the frames 0, 1, ..., `frameCount - 1`, requested in that order. -/
theorem GetAsAnimation_frames (env : Env) (s : State) (d : ContentFile) (vectorToFill : List Ptr)
    (frameCount : Nat) (conversionMode : Int) (hcount : 1 < frameCount)
    (hpath : d.m_DataPath ≠ [])
    (hfit : ∀ i, i < frameCount → (frameName d i).length ≤ 1023)
    (hexists : ∀ i, i < frameCount → env.PathExistsCaseSensitive (frameName d i) = true)
    (hdecode : ∀ i, i < frameCount →
      env.load_bitmap (if conversionMode = 0 then env.COLORCONV_MOST else conversionMode)
        (frameName d i) = true) :
    ∃ frames s1 d1,
      GetAsAnimation env s d vectorToFill frameCount conversionMode
        = .returns (vectorToFill ++ frames, s1, d1) ∧
      frames.length = frameCount ∧
      requestFrames env conversionMode ((List.range frameCount).map (frameName d)) s
          (SetFormattedReaderPosition d d.m_FormattedReaderPosition)
        = .returns (frames, s1, d1) := by
  have hcond : ¬(d.m_DataPath = [] ∨ (frameCount : Int) < 1) := by
    intro h
    rcases h with h | h
    · exact hpath h
    · omega
  have hone : ¬((frameCount : Int) = 1) := by omega
  obtain ⟨frames, s1, d1, hloop, hlen, hreq⟩ :=
    animationLoop_frames env conversionMode d frameCount 0 s
      (SetFormattedReaderPosition d d.m_FormattedReaderPosition) vectorToFill rfl rfl hpath
      (fun j _ hj => ⟨hfit j (by omega), hexists j (by omega), hdecode j (by omega)⟩)
  refine ⟨frames, s1, d1, ?_, hlen, ?_⟩
  · simp only [GetAsAnimation, if_neg hcond, if_neg hone, Int.toNat_ofNat, hloop]
  · rw [List.range_eq_range']
    exact hreq

/-! ### Descriptors as `SetDataPath` leaves them -/

theorem CorrectBackslashesInPath_append (a b : Str) :
    CorrectBackslashesInPath (a ++ b) = CorrectBackslashesInPath a ++ CorrectBackslashesInPath b :=
  List.map_append _ a b

/-- The parts of a consistent descriptor: its path is `stem ++ '.' :: tail`, split at the last
`.`, and both parts are free of backslashes. -/
theorem ContentFile.Consistent.parts {d : ContentFile} (hd : d.Consistent) :
    ∃ tail, d.m_DataPath = d.m_DataPathWithoutExtension ++ '.' :: tail ∧
      d.m_DataPathExtension = '.' :: tail ∧
      (∀ c ∈ tail, c ≠ '.') ∧ (∀ c ∈ tail, c ≠ '/') ∧
      filename d.m_DataPathWithoutExtension ≠ [] ∧
      ¬(filename d.m_DataPathWithoutExtension = ['.'] ∧ tail = []) ∧
      CorrectBackslashesInPath d.m_DataPathWithoutExtension = d.m_DataPathWithoutExtension ∧
      CorrectBackslashesInPath ('.' :: tail) = '.' :: tail := by
  obtain ⟨hnorm, hext, hne, hwe⟩ := hd
  rw [hext] at hne
  obtain ⟨stem, tail, hp, hdot, hslash, hsplit, hstem, hdots⟩ := extension_split _ hne
  have hstemEq : d.m_DataPathWithoutExtension = stem := by
    rw [hwe, hext, hsplit, hp]
    exact substr0_sizeSub stem ('.' :: tail)
  rw [hp, CorrectBackslashesInPath_append] at hnorm
  have hlen : (CorrectBackslashesInPath stem).length = stem.length := List.length_map _ _
  obtain ⟨h1, h2⟩ := List.append_inj hnorm hlen
  rw [hstemEq]
  exact ⟨tail, hp, by rw [hext, hsplit], hdot, hslash, hstem, hdots, h1, h2⟩

/-- The outcome of `SetDataPath` for a path `stem ++ '.' :: tail` made of normalized parts, split at its last
`.`: it returns, with exactly these parts. -/
theorem SetDataPath_of_parts (env : Env) (s : State) (d : ContentFile) (stem tail : Str)
    (hstemN : CorrectBackslashesInPath stem = stem)
    (htailN : CorrectBackslashesInPath ('.' :: tail) = '.' :: tail)
    (hdot : ∀ c ∈ tail, c ≠ '.') (hslash : ∀ c ∈ tail, c ≠ '/')
    (hstem : filename stem ≠ []) (hdots : ¬(filename stem = ['.'] ∧ tail = [])) :
    SetDataPath env s d (stem ++ '.' :: tail)
      = .returns
          ({ s with s_PathHashes :=
                      assign s.s_PathHashes (env.hash (stem ++ '.' :: tail)) (stem ++ '.' :: tail) },
           { d with m_DataPath := stem ++ '.' :: tail,
                    m_DataPathExtension := '.' :: tail,
                    m_DataPathWithoutExtension := stem,
                    m_DataModuleID := env.GetModuleIDFromPath (stem ++ '.' :: tail) }) := by
  have hnorm : CorrectBackslashesInPath (stem ++ '.' :: tail) = stem ++ '.' :: tail := by
    rw [CorrectBackslashesInPath_append, hstemN, htailN]
  have hext := extension_append stem tail hdot hslash hstem hdots
  have hne : ¬(extension (stem ++ '.' :: tail) = []) := by rw [hext]; exact List.cons_ne_nil _ _
  simp only [SetDataPath, hnorm, if_neg hne, GetHash]
  rw [hext, substr0_sizeSub stem ('.' :: tail)]

/-- A request for a path that is on disk logs no load warning and leaves the path of the
descriptor and its parts as they were. -/
theorem GetAsBitmap_of_exists_returns {env : Env} {s s1 : State} {d d1 : ContentFile}
    {conversionMode : Int} {storeBitmap : Bool} {frame : Str} {bitmap : Ptr}
    (hpath : d.m_DataPath ≠ [])
    (hexists : env.PathExistsCaseSensitive (if frame = [] then d.m_DataPath else frame) = true)
    (h : GetAsBitmap env s d conversionMode storeBitmap frame = .returns (bitmap, s1, d1)) :
    s1.loadWarnings = s.loadWarnings ∧
    d1 = SetFormattedReaderPosition d d.m_FormattedReaderPosition := by
  unfold GetAsBitmap at h
  simp only [if_neg hpath] at h
  split at h
  · simp only [Outcome.returns.injEq, Prod.mk.injEq] at h
    obtain ⟨-, hs, hd⟩ := h
    subst hs hd
    exact ⟨rfl, rfl⟩
  · have hres : resolveBitmapPath env s (SetFormattedReaderPosition d d.m_FormattedReaderPosition)
        (if frame = [] then d.m_DataPath else frame)
        = .returns (if frame = [] then d.m_DataPath else frame, s,
            SetFormattedReaderPosition d d.m_FormattedReaderPosition) := by
      simp [resolveBitmapPath, hexists]
    rw [hres] at h
    simp only at h
    split at h
    · cases h
    · rename_i b s3 d3 hload
      have hpath1 : (SetFormattedReaderPosition d d.m_FormattedReaderPosition).m_DataPath ≠ [] :=
        hpath
      obtain ⟨-, -, -, -, hw, -, hd3⟩ := LoadAndReleaseBitmap_returns hpath1 hload
      simp only [Outcome.returns.injEq, Prod.mk.injEq] at h
      obtain ⟨-, hs1, hd1⟩ := h
      subst hs1 hd1
      refine ⟨?_, hd3⟩
      split <;> simp [hw]

/-- The image fallback when the resolved path is not cached yet: for a consistent descriptor
whose path is neither cached nor on disk while the file with the alternative extension is on
disk, decodes and is not cached, a storing `GetAsBitmap` rewrites the path to that file, logs
one load warning, decodes the file once and caches the new handle under the new path. -/
theorem GetAsBitmap_fallback (env : Env) (s : State) (d : ContentFile) (conversionMode : Int)
    (hd : d.Consistent)
    (hmiss : find (s.s_LoadedBitmaps.get (bitDepthOf env conversionMode)) d.m_DataPath = none)
    (habsent : env.PathExistsCaseSensitive d.m_DataPath = false)
    (hexists : env.PathExistsCaseSensitive
      (d.m_DataPathWithoutExtension ++ altImageExtension d.m_DataPathExtension) = true)
    (hfresh : find (s.s_LoadedBitmaps.get (bitDepthOf env conversionMode))
      (d.m_DataPathWithoutExtension ++ altImageExtension d.m_DataPathExtension) = none)
    (hdecode : env.load_bitmap (if conversionMode = 0 then env.COLORCONV_MOST else conversionMode)
      (d.m_DataPathWithoutExtension ++ altImageExtension d.m_DataPathExtension) = true) :
    ∃ s1 d1, GetAsBitmap env s d conversionMode true [] = .returns (some s.allocated, s1, d1) ∧
      d1.m_DataPath = d.m_DataPathWithoutExtension ++ altImageExtension d.m_DataPathExtension ∧
      find (s1.s_LoadedBitmaps.get (bitDepthOf env conversionMode)) d1.m_DataPath
        = some (some s.allocated) ∧
      s1.bitmapLoads = s.bitmapLoads ++
        [(if conversionMode = 0 then env.COLORCONV_MOST else conversionMode, d1.m_DataPath)] ∧
      s1.loadWarnings = s.loadWarnings ++
        [(d.m_DataPath, d.m_FormattedReaderPosition, altImageExtension d.m_DataPathExtension)] := by
  obtain ⟨tail0, hp, hext0, -, -, hstem, -, hstemN, -⟩ := hd.parts
  have hpath : d.m_DataPath ≠ [] := by rw [hp]; simp
  obtain ⟨tail, halt, htailNe, hdot, hslash, htailN⟩ :
      ∃ tail, altImageExtension d.m_DataPathExtension = '.' :: tail ∧ tail ≠ [] ∧
        (∀ c ∈ tail, c ≠ '.') ∧ (∀ c ∈ tail, c ≠ '/') ∧
        CorrectBackslashesInPath ('.' :: tail) = '.' :: tail := by
    unfold altImageExtension
    split
    · exact ⟨"bmp".toList, rfl, by decide, by decide, by decide, by decide⟩
    · exact ⟨"png".toList, rfl, by decide, by decide, by decide, by decide⟩
  rw [halt] at hexists hfresh hdecode ⊢
  have hwe : substr0 d.m_DataPath (sizeSub d.m_DataPath.length d.m_DataPathExtension.length)
      = d.m_DataPathWithoutExtension := hd.2.2.2.symm
  obtain ⟨s2, d2, hset, hs2b, hs2a, hs2w, hs2l, hd2⟩ : ∃ s2 d2,
      SetDataPath env
        { s with loadWarnings :=
            s.loadWarnings ++ [(d.m_DataPath, d.m_FormattedReaderPosition, '.' :: tail)] }
        (SetFormattedReaderPosition d d.m_FormattedReaderPosition)
        (d.m_DataPathWithoutExtension ++ '.' :: tail) = .returns (s2, d2) ∧
      s2.s_LoadedBitmaps = s.s_LoadedBitmaps ∧ s2.allocated = s.allocated ∧
      s2.loadWarnings
        = s.loadWarnings ++ [(d.m_DataPath, d.m_FormattedReaderPosition, '.' :: tail)] ∧
      s2.bitmapLoads = s.bitmapLoads ∧
      d2.m_DataPath = d.m_DataPathWithoutExtension ++ '.' :: tail :=
    ⟨_, _, SetDataPath_of_parts env _ _ d.m_DataPathWithoutExtension tail hstemN htailN hdot
      hslash hstem (fun hc => htailNe hc.2), rfl, rfl, rfl, rfl, rfl⟩
  have hres : resolveBitmapPath env s (SetFormattedReaderPosition d d.m_FormattedReaderPosition)
      d.m_DataPath = .returns (d.m_DataPathWithoutExtension ++ '.' :: tail, s2, d2) := by
    simp only [resolveBitmapPath, habsent, if_true, SetFormattedReaderPosition_path,
      SetFormattedReaderPosition_extension, SetFormattedReaderPosition_withoutExtension,
      SetFormattedReaderPosition_position, hwe, halt, hexists, hset]
  have hkey : d.m_DataPathWithoutExtension ++ '.' :: tail ≠ [] := by simp
  have hd2ne : d2.m_DataPath ≠ [] := by rw [hd2]; exact hkey
  have hfresh1 : List.lookup (d.m_DataPathWithoutExtension ++ '.' :: tail)
      (s.s_LoadedBitmaps.get (bitDepthOf env conversionMode)) = none := hfresh
  cases hload : LoadAndReleaseBitmap env s2 d2 conversionMode
      (d.m_DataPathWithoutExtension ++ '.' :: tail) with
  | aborts f => simp [LoadAndReleaseBitmap, hd2ne, hdecode] at hload
  | returns r =>
    obtain ⟨b, s3, d3⟩ := r
    obtain ⟨hb, -, hs3b, -, hs3w, hs3l, hd3⟩ := LoadAndReleaseBitmap_returns hd2ne hload
    rw [if_neg hkey] at hs3l
    simp only [GetAsBitmap, if_neg hpath, if_true, hmiss, hres, hload]
    refine ⟨_, _, by rw [hb, hs2a], ?_, ?_, ?_, ?_⟩
    · rw [hd3]; exact hd2
    · simp [LoadedBitmaps.get_set_self, try_emplace, hfresh1, find, hs3b, hs2b, hd3, hd2,
        SetFormattedReaderPosition, hb, hs2a]
    · simp [hs3l, hs2l, hd3, hd2, SetFormattedReaderPosition]
    · simp [hs3w, hs2w]

/-- The single-frame fallback, whether or not the `000` file decodes: for a frame count of 1
and a descriptor whose path is not on disk while the path with
`000` before the extension is, `GetAsAnimation` rewrites the path of the descriptor to the `000`
path without a load warning, and then does what one `GetAsBitmap` for the rewritten descriptor
does: it appends the one handle that call returns; that call logs no load warning either and
keeps the rewritten path, and it returns whenever the `000` file decodes. -/
theorem GetAsAnimation_single_frame_000 (env : Env) (s : State) (d : ContentFile)
    (vectorToFill : List Ptr) (conversionMode : Int) (hd : d.Consistent)
    (habsent : env.PathExistsCaseSensitive d.m_DataPath = false)
    (hpresent : env.PathExistsCaseSensitive
      (d.m_DataPathWithoutExtension ++ "000".toList ++ d.m_DataPathExtension) = true) :
    ∃ s1 d1,
      SetDataPath env s (SetFormattedReaderPosition d d.m_FormattedReaderPosition)
          (d.m_DataPathWithoutExtension ++ "000".toList ++ d.m_DataPathExtension)
        = .returns (s1, d1) ∧
      d1.m_DataPath = d.m_DataPathWithoutExtension ++ "000".toList ++ d.m_DataPathExtension ∧
      s1.loadWarnings = s.loadWarnings ∧
      GetAsAnimation env s d vectorToFill 1 conversionMode
        = (match GetAsBitmap env s1 d1 conversionMode true [] with
           | .aborts f => .aborts f
           | .returns (bitmap, s2, d2) => .returns (vectorToFill ++ [bitmap], s2, d2)) ∧
      (∀ bitmap s2 d2, GetAsBitmap env s1 d1 conversionMode true [] = .returns (bitmap, s2, d2) →
        s2.loadWarnings = s.loadWarnings ∧
        d2.m_DataPath
          = d.m_DataPathWithoutExtension ++ "000".toList ++ d.m_DataPathExtension) ∧
      (env.load_bitmap (if conversionMode = 0 then env.COLORCONV_MOST else conversionMode)
          (d.m_DataPathWithoutExtension ++ "000".toList ++ d.m_DataPathExtension) = true →
        ∃ bitmap s2 d2,
          GetAsBitmap env s1 d1 conversionMode true [] = .returns (bitmap, s2, d2)) := by
  obtain ⟨tail, hp, hext, hdot, hslash, hstem, -, hstemN, htailN⟩ := hd.parts
  have hzeros : ∀ c ∈ "000".toList, c ≠ '/' := by decide
  have hfile : filename (d.m_DataPathWithoutExtension ++ "000".toList)
      = filename d.m_DataPathWithoutExtension ++ "000".toList := filename_append _ _ hzeros
  have hset := SetDataPath_of_parts env s
    (SetFormattedReaderPosition d d.m_FormattedReaderPosition)
    (d.m_DataPathWithoutExtension ++ "000".toList) tail
    (by rw [CorrectBackslashesInPath_append, hstemN]; rfl) htailN hdot hslash
    (by rw [hfile]; simp)
    (by
      rw [hfile]
      intro hc
      have hlen := congrArg List.length hc.1
      simp at hlen)
  have hpathNe : d.m_DataPath ≠ [] := by rw [hp]; simp
  rw [hext]
  rw [hext] at hpresent
  refine ⟨_, _, hset, rfl, rfl, ?_, ?_, ?_⟩
  · have hcond : ¬(d.m_DataPath = [] ∨ (1 : Int) < 1) := by
      intro h
      rcases h with h | h
      · exact hpathNe h
      · omega
    have hres : resolveSingleFrame env s
        (SetFormattedReaderPosition d d.m_FormattedReaderPosition)
        = SetDataPath env s (SetFormattedReaderPosition d d.m_FormattedReaderPosition)
            (d.m_DataPathWithoutExtension ++ "000".toList ++ '.' :: tail) := by
      have habsent1 : env.PathExistsCaseSensitive
          (SetFormattedReaderPosition d d.m_FormattedReaderPosition).m_DataPath = false := habsent
      have hpresent1 : env.PathExistsCaseSensitive
          ((SetFormattedReaderPosition d d.m_FormattedReaderPosition).m_DataPathWithoutExtension
            ++ "000".toList
            ++ (SetFormattedReaderPosition d d.m_FormattedReaderPosition).m_DataPathExtension)
          = true := by
        show env.PathExistsCaseSensitive
          (d.m_DataPathWithoutExtension ++ "000".toList ++ d.m_DataPathExtension) = true
        rw [hext]
        exact hpresent
      simp only [resolveSingleFrame, habsent1, hpresent1, if_true]
      show SetDataPath env s (SetFormattedReaderPosition d d.m_FormattedReaderPosition)
          (d.m_DataPathWithoutExtension ++ "000".toList ++ d.m_DataPathExtension) = _
      rw [hext]
    simp only [GetAsAnimation, if_neg hcond, if_true, hres, hset]
  · intro bitmap s2 d2 hget
    obtain ⟨hw, hd2⟩ := GetAsBitmap_of_exists_returns (by simp) (by simpa using hpresent) hget
    exact ⟨hw, by rw [hd2]; rfl⟩
  · intro hdecode
    obtain ⟨bitmap, s2, hget⟩ := GetAsBitmap_of_exists env
      { s with s_PathHashes :=
                 assign s.s_PathHashes
                   (env.hash (d.m_DataPathWithoutExtension ++ "000".toList ++ '.' :: tail))
                   (d.m_DataPathWithoutExtension ++ "000".toList ++ '.' :: tail) }
      { SetFormattedReaderPosition d d.m_FormattedReaderPosition with
          m_DataPath := d.m_DataPathWithoutExtension ++ "000".toList ++ '.' :: tail,
          m_DataPathExtension := '.' :: tail,
          m_DataPathWithoutExtension := d.m_DataPathWithoutExtension ++ "000".toList,
          m_DataModuleID := env.GetModuleIDFromPath
            (d.m_DataPathWithoutExtension ++ "000".toList ++ '.' :: tail) }
      conversionMode true [] (by simp) (by simpa using hpresent) (by simpa using hdecode)
    exact ⟨bitmap, s2, _, hget⟩

/-! ### Animations and sounds at concrete inputs -/

theorem GetAsAnimation_frames_witness :
    GetAsAnimation diskWithWalk State.initial walkPng [] 3 0
      = .returns ([some 0, some 1, some 2], walkLoaded, walkPngUsed) ∧
    ∃ frames s1 d1,
      GetAsAnimation diskWithWalk State.initial walkPng [] (3 : Nat) 0
        = .returns ([] ++ frames, s1, d1) ∧
      frames.length = 3 ∧
      requestFrames diskWithWalk 0 ((List.range 3).map (frameName walkPng)) State.initial
          (SetFormattedReaderPosition walkPng walkPng.m_FormattedReaderPosition)
        = .returns (frames, s1, d1) :=
  ⟨by decide,
   GetAsAnimation_frames diskWithWalk State.initial walkPng [] 3 0 (by decide) (by decide)
    (by decide) (by decide) (by decide)⟩

section LongPaths

set_option maxRecDepth 100000

/-- C6, the claim fails: the path has 1028 characters, so each frame path has 1031 and does not
fit the buffer of `GetAsAnimation`. Both frame files exist and decode, yet the path requested
for frame 0 is cut to 1023 characters, a file that is neither cached nor on disk, and the
process is aborted instead of two handles being appended. -/
theorem GetAsAnimation_long_path_counterexample :
    longPng.m_DataPath ≠ [] ∧
    diskWithLongFrames.PathExistsCaseSensitive (frameName longPng 0) = true ∧
    diskWithLongFrames.PathExistsCaseSensitive (frameName longPng 1) = true ∧
    diskWithLongFrames.load_bitmap diskWithLongFrames.COLORCONV_MOST (frameName longPng 0) = true ∧
    diskWithLongFrames.load_bitmap diskWithLongFrames.COLORCONV_MOST (frameName longPng 1) = true ∧
    (frameName longPng 0).length = 1031 ∧
    framePath longPng 0 = longDir ++ longDir ++ longDir ++ longDir ++ "wal".toList ∧
    GetAsAnimation diskWithLongFrames State.initial longPng [] 2 0 = .aborts .imageNotFound :=
  ⟨by decide, by decide, by decide, by decide, by decide, by decide, by decide, by decide⟩

end LongPaths

theorem GetAsAnimation_single_frame_000_witness :
    GetAsAnimation diskWithIdle State.initial idlePng [] 1 0
      = .returns ([some 0], idleLoaded, idle000Png) ∧
    ∃ s1 d1,
      SetDataPath diskWithIdle State.initial
          (SetFormattedReaderPosition idlePng idlePng.m_FormattedReaderPosition)
          (idlePng.m_DataPathWithoutExtension ++ "000".toList ++ idlePng.m_DataPathExtension)
        = .returns (s1, d1) ∧
      d1.m_DataPath
        = idlePng.m_DataPathWithoutExtension ++ "000".toList ++ idlePng.m_DataPathExtension ∧
      s1.loadWarnings = State.initial.loadWarnings ∧
      GetAsAnimation diskWithIdle State.initial idlePng [] 1 0
        = (match GetAsBitmap diskWithIdle s1 d1 0 true [] with
           | .aborts f => .aborts f
           | .returns (bitmap, s2, d2) => .returns ([] ++ [bitmap], s2, d2)) ∧
      (∀ bitmap s2 d2, GetAsBitmap diskWithIdle s1 d1 0 true [] = .returns (bitmap, s2, d2) →
        s2.loadWarnings = State.initial.loadWarnings ∧
        d2.m_DataPath
          = idlePng.m_DataPathWithoutExtension ++ "000".toList ++ idlePng.m_DataPathExtension) ∧
      (diskWithIdle.load_bitmap (if (0 : Int) = 0 then diskWithIdle.COLORCONV_MOST else 0)
          (idlePng.m_DataPathWithoutExtension ++ "000".toList ++ idlePng.m_DataPathExtension)
          = true →
        ∃ bitmap s2 d2,
          GetAsBitmap diskWithIdle s1 d1 0 true [] = .returns (bitmap, s2, d2)) :=
  ⟨by decide,
   GetAsAnimation_single_frame_000 diskWithIdle State.initial idlePng [] 0 (by decide)
    (by decide) (by decide)⟩

theorem CorrectBackslashesInPath_of_no_backslash (p : Str) (h : ∀ c ∈ p, c ≠ '\\') :
    CorrectBackslashesInPath p = p := by
  unfold CorrectBackslashesInPath
  induction p with
  | nil => rfl
  | cons c p ih =>
    have hc : c ≠ '\\' := h c (List.mem_cons_self _ _)
    simp only [List.map_cons, if_neg hc, List.cons.injEq, true_and]
    exact ih (fun x hx => h x (List.mem_cons_of_mem _ hx))

/-- The audio fallback when the resolved path is not cached yet: for a consistent descriptor
whose path is neither cached nor on disk, with `'.' :: tail` the first supported format for which
a file exists (non-empty, decodable, not cached), `GetAsSound` rewrites the path to that file,
logs one load warning, decodes the file once and caches the new handle under the new path. -/
theorem GetAsSound_fallback (env : Env) (s : State) (d : ContentFile)
    (abortGameForInvalidSound asyncLoading : Bool) (tail : Str)
    (haudio : env.IsAudioEnabled = true) (hd : d.Consistent)
    (hmiss : find s.s_LoadedSamples d.m_DataPath = none)
    (habsent : env.PathExistsCaseSensitive d.m_DataPath = false)
    (hfirst : env.c_SupportedAudioFormats.find?
      (fun e => env.PathExistsCaseSensitive (d.m_DataPathWithoutExtension ++ e))
        = some ('.' :: tail))
    (htail : tail ≠ []) (hchars : ∀ c ∈ tail, c ≠ '.' ∧ c ≠ '/' ∧ c ≠ '\\')
    (hfresh : find s.s_LoadedSamples (d.m_DataPathWithoutExtension ++ '.' :: tail) = none)
    (hsize : env.file_size (d.m_DataPathWithoutExtension ++ '.' :: tail) ≠ 0)
    (hdecode : env.createSound (d.m_DataPathWithoutExtension ++ '.' :: tail) asyncLoading = none) :
    GetAsSound env s d abortGameForInvalidSound asyncLoading
      = .returns (some s.allocated,
          { s with
              s_LoadedSamples :=
                (d.m_DataPathWithoutExtension ++ '.' :: tail, some s.allocated)
                  :: s.s_LoadedSamples,
              s_PathHashes :=
                assign s.s_PathHashes (env.hash (d.m_DataPathWithoutExtension ++ '.' :: tail))
                  (d.m_DataPathWithoutExtension ++ '.' :: tail),
              allocated := s.allocated + 1,
              loadWarnings :=
                s.loadWarnings ++ [(d.m_DataPath, d.m_FormattedReaderPosition, '.' :: tail)],
              soundLoads :=
                s.soundLoads ++ [(d.m_DataPathWithoutExtension ++ '.' :: tail, asyncLoading)] },
          { d with
              m_DataPath := d.m_DataPathWithoutExtension ++ '.' :: tail,
              m_DataPathExtension := '.' :: tail,
              m_DataModuleID :=
                env.GetModuleIDFromPath (d.m_DataPathWithoutExtension ++ '.' :: tail) }) := by
  obtain ⟨tail0, hp, -, -, -, hstem, -, hstemN, -⟩ := hd.parts
  have hpath : d.m_DataPath ≠ [] := by rw [hp]; simp
  have htailN : CorrectBackslashesInPath ('.' :: tail) = '.' :: tail := by
    apply CorrectBackslashesInPath_of_no_backslash
    intro c hc
    rcases List.mem_cons.mp hc with hc | hc
    · rw [hc]; decide
    · exact (hchars c hc).2.2
  have hexists : env.PathExistsCaseSensitive (d.m_DataPathWithoutExtension ++ '.' :: tail)
      = true := by
    have := List.find?_some hfirst
    simpa using this
  have hset := SetDataPath_of_parts env
    { s with loadWarnings :=
        s.loadWarnings ++ [(d.m_DataPath, d.m_FormattedReaderPosition, '.' :: tail)] }
    d d.m_DataPathWithoutExtension tail hstemN htailN
    (fun c hc => (hchars c hc).1) (fun c hc => (hchars c hc).2.1) hstem
    (fun hc => htail hc.2)
  have hmiss1 : List.lookup d.m_DataPath s.s_LoadedSamples = none := hmiss
  have hfresh1 : List.lookup (d.m_DataPathWithoutExtension ++ '.' :: tail) s.s_LoadedSamples
      = none := hfresh
  simp only [GetAsSound, LoadAndReleaseSound, resolveSoundPath, hpath, haudio, hmiss, habsent,
    hfirst, hset, hexists, hsize, hdecode, try_emplace, hfresh1, false_or, if_false, if_true,
    Bool.true_eq_false]

/-- C7, evaluated at a failing input. Only `shot.ogg` is on disk and is already cached as
object 0 for a descriptor that named it. A descriptor for `shot.wav` (not cached, not on disk) is
rewritten to `shot.ogg` with one load warning, but the cache is not consulted for the new path:
the file is decoded again and the new object 1 is returned, while the audio cache keeps object 0
under `shot.ogg`, so the returned handle is not what the cache holds. -/
theorem GetAsSound_fallback_decodes_again :
    GetAsSound diskWithOgg State.initial shotOgg false false
      = .returns (some 0, oggLoaded, shotOgg) ∧
    find oggLoaded.s_LoadedSamples shotWav.m_DataPath = none ∧
    diskWithOgg.PathExistsCaseSensitive shotWav.m_DataPath = false ∧
    GetAsSound diskWithOgg oggLoaded shotWav false false
      = .returns (some 1, oggLoadedTwice, shotOgg) ∧
    find oggLoadedTwice.s_LoadedSamples "shot.ogg".toList = some (some 0) ∧
    oggLoadedTwice.loadWarnings = [("shot.wav".toList, [], ".ogg".toList)] :=
  ⟨by decide, by decide, by decide, by decide, by decide, by decide⟩

/-- C8, the claim fails for a cache that holds the path: after a request without hard failure
has cached the null handle for the missing `gone.wav`, a request with hard failure for the same
path is a cache hit: it returns null and does not abort, and it logs nothing. -/
theorem GetAsSound_cached_missing_counterexample :
    GetAsSound emptyDisk State.initial goneWav false false = .returns (none, goneCached, goneWav) ∧
    goneWav.m_DataPath ≠ [] ∧
    emptyDisk.PathExistsCaseSensitive goneWav.m_DataPath = false ∧
    (emptyDisk.c_SupportedAudioFormats.all fun e =>
      emptyDisk.PathExistsCaseSensitive (goneWav.m_DataPathWithoutExtension ++ e) == false)
      = true ∧
    GetAsSound emptyDisk goneCached goneWav true false = .returns (none, goneCached, goneWav) :=
  ⟨by decide, by decide, by decide, by decide, by decide⟩

/-- C8 as amended: with audio enabled, for every state whose audio cache does not hold the path
and every descriptor with a non-empty path that is missing on disk and has no alternative among
the supported formats, `GetAsSound` with hard failure aborts, and `GetAsSound` without hard
failure does not abort, prints one line and returns null (which it enters into the cache). -/
theorem GetAsSound_missing (env : Env) (s : State) (d : ContentFile) (asyncLoading : Bool)
    (haudio : env.IsAudioEnabled = true) (hpath : d.m_DataPath ≠ [])
    (hmiss : find s.s_LoadedSamples d.m_DataPath = none)
    (habsent : env.PathExistsCaseSensitive d.m_DataPath = false)
    (hnone : ∀ e ∈ env.c_SupportedAudioFormats,
      env.PathExistsCaseSensitive (d.m_DataPathWithoutExtension ++ e) = false) :
    GetAsSound env s d true asyncLoading = .aborts .soundNotFound ∧
    GetAsSound env s d false asyncLoading
      = .returns (none,
          { s with console := s.console ++ [missingSoundLine d.m_DataPath],
                   s_LoadedSamples := (d.m_DataPath, none) :: s.s_LoadedSamples }, d) := by
  have hfind : env.c_SupportedAudioFormats.find?
      (fun e => env.PathExistsCaseSensitive (d.m_DataPathWithoutExtension ++ e)) = none := by
    rw [List.find?_eq_none]
    intro e he
    simp [hnone e he]
  have hmiss1 : List.lookup d.m_DataPath s.s_LoadedSamples = none := hmiss
  constructor
  · simp [GetAsSound, LoadAndReleaseSound, resolveSoundPath, hpath, haudio, hmiss, habsent, hfind]
  · simp [GetAsSound, LoadAndReleaseSound, resolveSoundPath, hpath, haudio, hmiss, habsent, hfind,
      try_emplace, hmiss1, missingSoundLine]

theorem GetAsSound_missing_witness :
    GetAsSound emptyDisk State.initial goneWav true false = .aborts .soundNotFound ∧
    GetAsSound emptyDisk State.initial goneWav false false
      = .returns (none,
          { State.initial with
              console := State.initial.console ++ [missingSoundLine goneWav.m_DataPath],
              s_LoadedSamples := (goneWav.m_DataPath, none) :: State.initial.s_LoadedSamples },
          goneWav) :=
  GetAsSound_missing emptyDisk State.initial goneWav false (by decide) (by decide) (by decide)
    (by decide) (by decide)

/-! ### The image cache only grows -/

theorem State.EntriesKept.refl (s : State) : s.EntriesKept s :=
  fun _ _ _ h => h

theorem State.EntriesKept.trans {s s1 s2 : State} (h1 : s.EntriesKept s1)
    (h2 : s1.EntriesKept s2) : s.EntriesKept s2 :=
  fun depth key bitmap h => h2 depth key bitmap (h1 depth key bitmap h)

theorem State.EntriesKept.of_eq {s s1 : State} (h : s1.s_LoadedBitmaps = s.s_LoadedBitmaps) :
    s.EntriesKept s1 := by
  intro depth key bitmap hfind
  rw [h]
  exact hfind

theorem LoadedBitmaps.set_get_self (m : LoadedBitmaps) (a : BitDepths) : m.set a (m.get a) = m := by
  cases a <;> rfl

/-- An entry of a map is still there after `try_emplace`, for whatever key and value. -/
theorem find_try_emplace_of_find {c : Cache} {key : Str} {bitmap : Ptr} (key2 : Str)
    (value : Ptr) (h : find c key = some bitmap) :
    find (try_emplace c key2 value) key = some bitmap := by
  unfold try_emplace
  split
  · exact h
  · rename_i hmiss
    unfold find
    rw [List.lookup_cons]
    split
    · rename_i heq
      have hkey : key = key2 := by simpa using heq
      rw [hkey] at h
      have h1 : List.lookup key2 c = some bitmap := h
      rw [hmiss] at h1
      cases h1
    · exact h

theorem SetDataPath_bitmaps {env : Env} {s s1 : State} {d d1 : ContentFile} {newDataPath : Str}
    (h : SetDataPath env s d newDataPath = .returns (s1, d1)) :
    s1.s_LoadedBitmaps = s.s_LoadedBitmaps := by
  obtain ⟨-, hs, -⟩ := SetDataPath_returns h
  rw [hs]

/-- What a `GetAsBitmap` that returns does to the image cache: nothing, or, when it stores
after a miss, it enters the decoded handle under a key that was not mapped. -/
theorem GetAsBitmap_bitmaps {env : Env} {s s1 : State} {d d1 : ContentFile}
    {conversionMode : Int} {storeBitmap : Bool} {frame : Str} {bitmap : Ptr}
    (h : GetAsBitmap env s d conversionMode storeBitmap frame = .returns (bitmap, s1, d1)) :
    s1.s_LoadedBitmaps = s.s_LoadedBitmaps ∨
    (storeBitmap = true ∧
      find (s.s_LoadedBitmaps.get (bitDepthOf env conversionMode))
        (if frame = [] then d.m_DataPath else frame) = none ∧
      ∃ resolved,
        find (s.s_LoadedBitmaps.get (bitDepthOf env conversionMode)) resolved = none ∧
        s1.s_LoadedBitmaps = s.s_LoadedBitmaps.set (bitDepthOf env conversionMode)
          ((resolved, bitmap) :: s.s_LoadedBitmaps.get (bitDepthOf env conversionMode))) := by
  by_cases hpath : d.m_DataPath = []
  · simp only [GetAsBitmap, if_pos hpath, Outcome.returns.injEq, Prod.mk.injEq] at h
    left
    rw [← h.2.1]
  · rcases GetAsBitmap_returns hpath h with ⟨-, hs, -⟩ | ⟨hmiss, -, -, -, resolved, hr⟩
    · left
      rw [hs]
    · cases storeBitmap with
      | false => left; simpa using hr
      | true =>
        simp only [if_true] at hr
        cases hfind : find (s.s_LoadedBitmaps.get (bitDepthOf env conversionMode)) resolved with
        | some found =>
          left
          have hlook : List.lookup resolved
              (s.s_LoadedBitmaps.get (bitDepthOf env conversionMode)) = some found := hfind
          rw [hr]
          simp only [try_emplace, hlook]
          exact LoadedBitmaps.set_get_self _ _
        | none =>
          right
          have hlook : List.lookup resolved
              (s.s_LoadedBitmaps.get (bitDepthOf env conversionMode)) = none := hfind
          refine ⟨rfl, hmiss, resolved, hfind, ?_⟩
          rw [hr]
          simp only [try_emplace, hlook]

theorem GetAsBitmap_entriesKept {env : Env} {s s1 : State} {d d1 : ContentFile}
    {conversionMode : Int} {storeBitmap : Bool} {frame : Str} {bitmap : Ptr}
    (h : GetAsBitmap env s d conversionMode storeBitmap frame = .returns (bitmap, s1, d1)) :
    s.EntriesKept s1 := by
  rcases GetAsBitmap_bitmaps h with heq | ⟨-, -, resolved, hmiss, hset⟩
  · exact State.EntriesKept.of_eq heq
  · intro depth key found hfind
    rw [hset]
    by_cases hdepth : bitDepthOf env conversionMode = depth
    · subst hdepth
      rw [LoadedBitmaps.get_set_self]
      have := find_try_emplace_of_find resolved bitmap hfind
      have hlook : List.lookup resolved
          (s.s_LoadedBitmaps.get (bitDepthOf env conversionMode)) = none := hmiss
      simpa [try_emplace, hlook] using this
    · rw [LoadedBitmaps.get_set_of_ne _ _ hdepth]
      exact hfind

theorem resolveSingleFrame_bitmaps {env : Env} {s s1 : State} {d d1 : ContentFile}
    (h : resolveSingleFrame env s d = .returns (s1, d1)) :
    s1.s_LoadedBitmaps = s.s_LoadedBitmaps := by
  simp only [resolveSingleFrame] at h
  split at h
  · split at h
    · exact SetDataPath_bitmaps h
    · split at h
      · have := SetDataPath_bitmaps h
        exact this
      · simp only [Outcome.returns.injEq, Prod.mk.injEq] at h
        rw [← h.1]
  · simp only [Outcome.returns.injEq, Prod.mk.injEq] at h
    rw [← h.1]

theorem animationLoop_entriesKept (env : Env) (conversionMode : Int) :
    ∀ (n i : Nat) (s s1 : State) (d d1 : ContentFile) (vectorToFill filled : List Ptr),
      animationLoop env conversionMode n i s d vectorToFill = .returns (filled, s1, d1) →
      s.EntriesKept s1 := by
  intro n
  induction n with
  | zero =>
    intro i s s1 d d1 vectorToFill filled h
    simp only [animationLoop, Outcome.returns.injEq, Prod.mk.injEq] at h
    rw [← h.2.1]
    exact State.EntriesKept.refl s
  | succ n ih =>
    intro i s s1 d d1 vectorToFill filled h
    simp only [animationLoop] at h
    split at h
    · cases h
    · rename_i bitmap s2 d2 hget
      exact (GetAsBitmap_entriesKept hget).trans (ih _ _ _ _ _ _ _ h)

theorem GetAsAnimation_entriesKept {env : Env} {s s1 : State} {d d1 : ContentFile}
    {vectorToFill filled : List Ptr} {frameCount conversionMode : Int}
    (h : GetAsAnimation env s d vectorToFill frameCount conversionMode
      = .returns (filled, s1, d1)) :
    s.EntriesKept s1 := by
  simp only [GetAsAnimation] at h
  split at h
  · simp only [Outcome.returns.injEq, Prod.mk.injEq] at h
    rw [← h.2.1]
    exact State.EntriesKept.refl s
  · split at h
    · split at h
      · cases h
      · rename_i s2 d2 hres
        split at h
        · cases h
        · rename_i bitmap s3 d3 hget
          simp only [Outcome.returns.injEq, Prod.mk.injEq] at h
          rw [← h.2.1]
          exact (State.EntriesKept.of_eq (resolveSingleFrame_bitmaps hres)).trans
            (GetAsBitmap_entriesKept hget)
    · exact animationLoop_entriesKept env conversionMode _ _ _ _ _ _ _ _ h

theorem resolveSoundPath_bitmaps {env : Env} {s s1 : State} {d d1 : ContentFile}
    {abortGameForInvalidSound flag : Bool}
    (h : resolveSoundPath env s d abortGameForInvalidSound = .returns (flag, s1, d1)) :
    s1.s_LoadedBitmaps = s.s_LoadedBitmaps := by
  simp only [resolveSoundPath] at h
  split at h
  · split at h
    · split at h
      · cases h
      · rename_i s2 d2 hset
        simp only [Outcome.returns.injEq, Prod.mk.injEq] at h
        rw [← h.2.1]
        have := SetDataPath_bitmaps hset
        exact this
    · split at h
      · cases h
      · simp only [Outcome.returns.injEq, Prod.mk.injEq] at h
        rw [← h.2.1]
  · simp only [Outcome.returns.injEq, Prod.mk.injEq] at h
    rw [← h.2.1]

theorem LoadAndReleaseSound_bitmaps {env : Env} {s s1 : State} {d d1 : ContentFile}
    {abortGameForInvalidSound asyncLoading : Bool} {sample : Ptr}
    (h : LoadAndReleaseSound env s d abortGameForInvalidSound asyncLoading
      = .returns (sample, s1, d1)) :
    s1.s_LoadedBitmaps = s.s_LoadedBitmaps := by
  simp only [LoadAndReleaseSound] at h
  split at h
  · simp only [Outcome.returns.injEq, Prod.mk.injEq] at h
    rw [← h.2.1]
  · split at h
    · cases h
    · rename_i s2 d2 hres
      simp only [Outcome.returns.injEq, Prod.mk.injEq] at h
      rw [← h.2.1]
      exact resolveSoundPath_bitmaps hres
    · rename_i s2 d2 hres
      have hs2 := resolveSoundPath_bitmaps hres
      split at h
      · cases h
      · split at h
        · split at h
          · cases h
          · simp only [Outcome.returns.injEq, Prod.mk.injEq] at h
            rw [← h.2.1]
            exact hs2
        · split at h
          · split at h
            · cases h
            · simp only [Outcome.returns.injEq, Prod.mk.injEq] at h
              rw [← h.2.1]
              exact hs2
          · simp only [Outcome.returns.injEq, Prod.mk.injEq] at h
            rw [← h.2.1]
            exact hs2

theorem GetAsSound_bitmaps {env : Env} {s s1 : State} {d d1 : ContentFile}
    {abortGameForInvalidSound asyncLoading : Bool} {sample : Ptr}
    (h : GetAsSound env s d abortGameForInvalidSound asyncLoading = .returns (sample, s1, d1)) :
    s1.s_LoadedBitmaps = s.s_LoadedBitmaps := by
  simp only [GetAsSound] at h
  split at h
  · simp only [Outcome.returns.injEq, Prod.mk.injEq] at h
    rw [← h.2.1]
  · split at h
    · simp only [Outcome.returns.injEq, Prod.mk.injEq] at h
      rw [← h.2.1]
    · split at h
      · cases h
      · rename_i found s2 d2 hload
        simp only [Outcome.returns.injEq, Prod.mk.injEq] at h
        rw [← h.2.1]
        have := LoadAndReleaseSound_bitmaps hload
        exact this

/-- C12: an entry of the image cache is stable. If a partition maps a key to a handle, then
after any `GetAsBitmap`, `GetAsAnimation`, `GetAsSound` or `SetDataPath` that returns, and after
`FreeAllLoaded`, the same partition maps the key to the same handle. A `GetAsBitmap` changes the
cache only by adding: either it leaves both partitions as they are, or it was told to store,
missed the cache, and enters the decoded handle under a key that was not mapped before. -/
theorem image_cache_entries_stable (env : Env) (s : State) (depth : BitDepths) (key : Str)
    (bitmap : Ptr) (hentry : find (s.s_LoadedBitmaps.get depth) key = some bitmap) :
    (∀ d conversionMode storeBitmap frame returned s1 d1,
      GetAsBitmap env s d conversionMode storeBitmap frame = .returns (returned, s1, d1) →
      find (s1.s_LoadedBitmaps.get depth) key = some bitmap ∧
      (s1.s_LoadedBitmaps = s.s_LoadedBitmaps ∨
        (storeBitmap = true ∧
          find (s.s_LoadedBitmaps.get (bitDepthOf env conversionMode))
            (if frame = [] then d.m_DataPath else frame) = none ∧
          ∃ resolved,
            find (s.s_LoadedBitmaps.get (bitDepthOf env conversionMode)) resolved = none ∧
            s1.s_LoadedBitmaps = s.s_LoadedBitmaps.set (bitDepthOf env conversionMode)
              ((resolved, returned) :: s.s_LoadedBitmaps.get (bitDepthOf env conversionMode))))) ∧
    (∀ d vectorToFill frameCount conversionMode filled s1 d1,
      GetAsAnimation env s d vectorToFill frameCount conversionMode = .returns (filled, s1, d1) →
      find (s1.s_LoadedBitmaps.get depth) key = some bitmap) ∧
    (∀ d abortGameForInvalidSound asyncLoading sample s1 d1,
      GetAsSound env s d abortGameForInvalidSound asyncLoading = .returns (sample, s1, d1) →
      find (s1.s_LoadedBitmaps.get depth) key = some bitmap) ∧
    (∀ d newDataPath s1 d1, SetDataPath env s d newDataPath = .returns (s1, d1) →
      find (s1.s_LoadedBitmaps.get depth) key = some bitmap) ∧
    find ((FreeAllLoaded s).s_LoadedBitmaps.get depth) key = some bitmap := by
  refine ⟨?_, ?_, ?_, ?_, hentry⟩
  · intro d conversionMode storeBitmap frame returned s1 d1 h
    exact ⟨GetAsBitmap_entriesKept h depth key bitmap hentry, GetAsBitmap_bitmaps h⟩
  · intro d vectorToFill frameCount conversionMode filled s1 d1 h
    exact GetAsAnimation_entriesKept h depth key bitmap hentry
  · intro d abortGameForInvalidSound asyncLoading sample s1 d1 h
    rw [GetAsSound_bitmaps h]
    exact hentry
  · intro d newDataPath s1 d1 h
    rw [SetDataPath_bitmaps h]
    exact hentry

theorem image_cache_entries_stable_witness :
    find (walkLoaded.s_LoadedBitmaps.get .Eight) "walk000.png".toList = some (some 0) ∧
    find ((FreeAllLoaded walkFirstLoaded).s_LoadedBitmaps.get .Eight) "walk000.png".toList
      = some (some 0) :=
  ⟨(image_cache_entries_stable diskWithWalk walkFirstLoaded .Eight "walk000.png".toList (some 0)
      (by decide)).2.1 walkPng [] 3 0 [some 0, some 1, some 2] walkLoaded walkPngUsed (by decide),
   (image_cache_entries_stable diskWithWalk walkFirstLoaded .Eight "walk000.png".toList (some 0)
      (by decide)).2.2.2.2⟩

/-! ### Descriptor consistency is kept -/

theorem ContentFile.PathInvariant.congr {env : Env} {d d1 : ContentFile}
    (h : d.PathInvariant env) (hpath : d1.m_DataPath = d.m_DataPath)
    (hext : d1.m_DataPathExtension = d.m_DataPathExtension)
    (hwe : d1.m_DataPathWithoutExtension = d.m_DataPathWithoutExtension) :
    d1.PathInvariant env := by
  unfold ContentFile.PathInvariant GetHash at *
  rw [hpath, hext, hwe]
  exact ⟨h.1, rfl, h.2.2⟩

theorem ContentFile.PathInvariant.setFormattedReaderPosition {env : Env} {d : ContentFile}
    (h : d.PathInvariant env) (position : Str) :
    (SetFormattedReaderPosition d position).PathInvariant env :=
  h.congr rfl rfl rfl

/-- Whatever the descriptor was, a `SetDataPath` that returns leaves it consistent. -/
theorem SetDataPath_pathInvariant {env : Env} {s s1 : State} {d d1 : ContentFile}
    {newDataPath : Str} (h : SetDataPath env s d newDataPath = .returns (s1, d1)) :
    d1.PathInvariant env := by
  obtain ⟨hext, -, hd⟩ := SetDataPath_returns h
  obtain ⟨stem, tail, hp, -, -, hsplit, -, -⟩ := extension_split _ hext
  subst hd
  refine ⟨?_, rfl, fun _ => hext⟩
  show substr0 (CorrectBackslashesInPath newDataPath)
      (sizeSub (CorrectBackslashesInPath newDataPath).length
        (extension (CorrectBackslashesInPath newDataPath)).length)
      ++ extension (CorrectBackslashesInPath newDataPath) = CorrectBackslashesInPath newDataPath
  rw [hsplit]
  conv_lhs => rw [hp]
  rw [substr0_sizeSub stem ('.' :: tail)]
  exact hp.symm

theorem LoadAndReleaseBitmap_pathInvariant {env : Env} {s s1 : State} {d d1 : ContentFile}
    {conversionMode : Int} {frame : Str} {bitmap : Ptr} (hd : d.PathInvariant env)
    (h : LoadAndReleaseBitmap env s d conversionMode frame = .returns (bitmap, s1, d1)) :
    d1.PathInvariant env := by
  by_cases hpath : d.m_DataPath = []
  · simp only [LoadAndReleaseBitmap, if_pos hpath, Outcome.returns.injEq, Prod.mk.injEq] at h
    rw [← h.2.2]
    exact hd
  · obtain ⟨-, -, -, -, -, -, hd1⟩ := LoadAndReleaseBitmap_returns hpath h
    rw [hd1]
    exact hd.setFormattedReaderPosition _

theorem resolveBitmapPath_pathInvariant {env : Env} {s s1 : State} {d d1 : ContentFile}
    {dataPathToLoad pathToLoad : Str} (hd : d.PathInvariant env)
    (h : resolveBitmapPath env s d dataPathToLoad = .returns (pathToLoad, s1, d1)) :
    d1.PathInvariant env := by
  simp only [resolveBitmapPath] at h
  split at h
  · split at h
    · split at h
      · cases h
      · rename_i s2 d2 hset
        simp only [Outcome.returns.injEq, Prod.mk.injEq] at h
        rw [← h.2.2]
        exact SetDataPath_pathInvariant hset
    · cases h
  · simp only [Outcome.returns.injEq, Prod.mk.injEq] at h
    rw [← h.2.2]
    exact hd

theorem GetAsBitmap_pathInvariant {env : Env} {s s1 : State} {d d1 : ContentFile}
    {conversionMode : Int} {storeBitmap : Bool} {frame : Str} {bitmap : Ptr}
    (hd : d.PathInvariant env)
    (h : GetAsBitmap env s d conversionMode storeBitmap frame = .returns (bitmap, s1, d1)) :
    d1.PathInvariant env := by
  simp only [GetAsBitmap] at h
  split at h
  · simp only [Outcome.returns.injEq, Prod.mk.injEq] at h
    rw [← h.2.2]
    exact hd
  · split at h
    · simp only [Outcome.returns.injEq, Prod.mk.injEq] at h
      rw [← h.2.2]
      exact hd.setFormattedReaderPosition _
    · split at h
      · cases h
      · rename_i pathToLoad s2 d2 hres
        have hd2 := resolveBitmapPath_pathInvariant (hd.setFormattedReaderPosition _) hres
        split at h
        · cases h
        · rename_i returned s3 d3 hload
          simp only [Outcome.returns.injEq, Prod.mk.injEq] at h
          rw [← h.2.2]
          exact LoadAndReleaseBitmap_pathInvariant hd2 hload

theorem animationLoop_pathInvariant (env : Env) (conversionMode : Int) :
    ∀ (n i : Nat) (s s1 : State) (d d1 : ContentFile) (vectorToFill filled : List Ptr),
      d.PathInvariant env →
      animationLoop env conversionMode n i s d vectorToFill = .returns (filled, s1, d1) →
      d1.PathInvariant env := by
  intro n
  induction n with
  | zero =>
    intro i s s1 d d1 vectorToFill filled hd h
    simp only [animationLoop, Outcome.returns.injEq, Prod.mk.injEq] at h
    rw [← h.2.2]
    exact hd
  | succ n ih =>
    intro i s s1 d d1 vectorToFill filled hd h
    simp only [animationLoop] at h
    split at h
    · cases h
    · rename_i bitmap s2 d2 hget
      exact ih _ _ _ _ _ _ _ (GetAsBitmap_pathInvariant hd hget) h

theorem resolveSingleFrame_pathInvariant {env : Env} {s s1 : State} {d d1 : ContentFile}
    (hd : d.PathInvariant env) (h : resolveSingleFrame env s d = .returns (s1, d1)) :
    d1.PathInvariant env := by
  simp only [resolveSingleFrame] at h
  split at h
  · split at h
    · exact SetDataPath_pathInvariant h
    · split at h
      · exact SetDataPath_pathInvariant h
      · simp only [Outcome.returns.injEq, Prod.mk.injEq] at h
        rw [← h.2]
        exact hd
  · simp only [Outcome.returns.injEq, Prod.mk.injEq] at h
    rw [← h.2]
    exact hd

theorem GetAsAnimation_pathInvariant {env : Env} {s s1 : State} {d d1 : ContentFile}
    {vectorToFill filled : List Ptr} {frameCount conversionMode : Int}
    (hd : d.PathInvariant env)
    (h : GetAsAnimation env s d vectorToFill frameCount conversionMode
      = .returns (filled, s1, d1)) :
    d1.PathInvariant env := by
  simp only [GetAsAnimation] at h
  split at h
  · simp only [Outcome.returns.injEq, Prod.mk.injEq] at h
    rw [← h.2.2]
    exact hd
  · split at h
    · split at h
      · cases h
      · rename_i s2 d2 hres
        have hd2 := resolveSingleFrame_pathInvariant (hd.setFormattedReaderPosition _) hres
        split at h
        · cases h
        · rename_i bitmap s3 d3 hget
          simp only [Outcome.returns.injEq, Prod.mk.injEq] at h
          rw [← h.2.2]
          exact GetAsBitmap_pathInvariant hd2 hget
    · exact animationLoop_pathInvariant env conversionMode _ _ _ _ _ _ _ _
        (hd.setFormattedReaderPosition _) h

theorem resolveSoundPath_pathInvariant {env : Env} {s s1 : State} {d d1 : ContentFile}
    {abortGameForInvalidSound flag : Bool} (hd : d.PathInvariant env)
    (h : resolveSoundPath env s d abortGameForInvalidSound = .returns (flag, s1, d1)) :
    d1.PathInvariant env := by
  simp only [resolveSoundPath] at h
  split at h
  · split at h
    · split at h
      · cases h
      · rename_i s2 d2 hset
        simp only [Outcome.returns.injEq, Prod.mk.injEq] at h
        rw [← h.2.2]
        exact SetDataPath_pathInvariant hset
    · split at h
      · cases h
      · simp only [Outcome.returns.injEq, Prod.mk.injEq] at h
        rw [← h.2.2]
        exact hd
  · simp only [Outcome.returns.injEq, Prod.mk.injEq] at h
    rw [← h.2.2]
    exact hd

theorem LoadAndReleaseSound_pathInvariant {env : Env} {s s1 : State} {d d1 : ContentFile}
    {abortGameForInvalidSound asyncLoading : Bool} {sample : Ptr} (hd : d.PathInvariant env)
    (h : LoadAndReleaseSound env s d abortGameForInvalidSound asyncLoading
      = .returns (sample, s1, d1)) :
    d1.PathInvariant env := by
  simp only [LoadAndReleaseSound] at h
  split at h
  · simp only [Outcome.returns.injEq, Prod.mk.injEq] at h
    rw [← h.2.2]
    exact hd
  · split at h
    · cases h
    · rename_i s2 d2 hres
      simp only [Outcome.returns.injEq, Prod.mk.injEq] at h
      rw [← h.2.2]
      exact resolveSoundPath_pathInvariant hd hres
    · rename_i s2 d2 hres
      have hd2 := resolveSoundPath_pathInvariant hd hres
      split at h
      · cases h
      · split at h
        · split at h
          · cases h
          · simp only [Outcome.returns.injEq, Prod.mk.injEq] at h
            rw [← h.2.2]
            exact hd2
        · split at h
          · split at h
            · cases h
            · simp only [Outcome.returns.injEq, Prod.mk.injEq] at h
              rw [← h.2.2]
              exact hd2
          · simp only [Outcome.returns.injEq, Prod.mk.injEq] at h
            rw [← h.2.2]
            exact hd2

theorem GetAsSound_pathInvariant {env : Env} {s s1 : State} {d d1 : ContentFile}
    {abortGameForInvalidSound asyncLoading : Bool} {sample : Ptr} (hd : d.PathInvariant env)
    (h : GetAsSound env s d abortGameForInvalidSound asyncLoading = .returns (sample, s1, d1)) :
    d1.PathInvariant env := by
  simp only [GetAsSound] at h
  split at h
  · simp only [Outcome.returns.injEq, Prod.mk.injEq] at h
    rw [← h.2.2]
    exact hd
  · split at h
    · simp only [Outcome.returns.injEq, Prod.mk.injEq] at h
      rw [← h.2.2]
      exact hd
    · split at h
      · cases h
      · rename_i found s2 d2 hload
        simp only [Outcome.returns.injEq, Prod.mk.injEq] at h
        rw [← h.2.2]
        exact LoadAndReleaseSound_pathInvariant hd hload

theorem ReadProperty_pathInvariant {env : Env} {s s1 : State} {d d1 : ContentFile}
    {propName propValue : Str} {base : State → Outcome (Int × State × Option Str)} {code : Int}
    (hd : d.PathInvariant env)
    (h : ReadProperty env s d propName propValue base = .returns (code, s1, d1)) :
    d1.PathInvariant env := by
  simp only [ReadProperty] at h
  split at h
  · split at h
    · cases h
    · rename_i s2 d2 hset
      simp only [Outcome.returns.injEq, Prod.mk.injEq] at h
      rw [← h.2.2]
      exact SetDataPath_pathInvariant hset
  · split at h
    · cases h
    · simp only [Outcome.returns.injEq, Prod.mk.injEq] at h
      rw [← h.2.2]
      exact hd
    · simp only [Outcome.returns.injEq, Prod.mk.injEq] at h
      rw [← h.2.2]
      exact hd.setFormattedReaderPosition _

/-- C11: descriptor consistency (`ContentFile.PathInvariant`: the path without extension
followed by the extension is the path, `GetHash` is the hash of the current path, and the
extension is not empty when the path is not) is an invariant of every operation that returns.
`Clear`, `Create` from a path and `SetDataPath` establish it, `Create` from another descriptor
hands it on from the reference, and `ReadProperty`, `GetAsBitmap`, `GetAsAnimation` and
`GetAsSound` keep it, their fallback rewrites included. -/
theorem descriptor_consistency_invariant (env : Env) :
    (∀ d, (Clear d).PathInvariant env) ∧
    (∀ s d filePath s1 d1, Create env s d filePath = .returns (s1, d1) →
      d1.PathInvariant env) ∧
    (∀ d reference, reference.PathInvariant env → (CreateFrom d reference).PathInvariant env) ∧
    (∀ s d newDataPath s1 d1, SetDataPath env s d newDataPath = .returns (s1, d1) →
      d1.PathInvariant env) ∧
    (∀ s d propName propValue base code s1 d1, d.PathInvariant env →
      ReadProperty env s d propName propValue base = .returns (code, s1, d1) →
      d1.PathInvariant env) ∧
    (∀ s d conversionMode storeBitmap frame bitmap s1 d1, d.PathInvariant env →
      GetAsBitmap env s d conversionMode storeBitmap frame = .returns (bitmap, s1, d1) →
      d1.PathInvariant env) ∧
    (∀ s d vectorToFill frameCount conversionMode filled s1 d1, d.PathInvariant env →
      GetAsAnimation env s d vectorToFill frameCount conversionMode = .returns (filled, s1, d1) →
      d1.PathInvariant env) ∧
    (∀ s d abortGameForInvalidSound asyncLoading sample s1 d1, d.PathInvariant env →
      GetAsSound env s d abortGameForInvalidSound asyncLoading = .returns (sample, s1, d1) →
      d1.PathInvariant env) := by
  refine ⟨?_, ?_, ?_, ?_, ?_, ?_, ?_, ?_⟩
  · intro d
    exact ⟨rfl, rfl, fun h => absurd rfl h⟩
  · intro s d filePath s1 d1 h
    simp only [Create] at h
    split at h
    · cases h
    · rename_i s2 d2 hset
      simp only [Outcome.returns.injEq, Prod.mk.injEq] at h
      rw [← h.2]
      exact (SetDataPath_pathInvariant hset).setFormattedReaderPosition _
  · intro d reference hreference
    exact hreference.congr rfl rfl rfl
  · intro s d newDataPath s1 d1 h
    exact SetDataPath_pathInvariant h
  · intro s d propName propValue base code s1 d1 hd h
    exact ReadProperty_pathInvariant hd h
  · intro s d conversionMode storeBitmap frame bitmap s1 d1 hd h
    exact GetAsBitmap_pathInvariant hd h
  · intro s d vectorToFill frameCount conversionMode filled s1 d1 hd h
    exact GetAsAnimation_pathInvariant hd h
  · intro s d abortGameForInvalidSound asyncLoading sample s1 d1 hd h
    exact GetAsSound_pathInvariant hd h

theorem descriptor_consistency_invariant_witness :
    (aBmpUsed.m_DataPathWithoutExtension ++ aBmpUsed.m_DataPathExtension = aBmpUsed.m_DataPath ∧
      GetHash diskWithBmp aBmpUsed = diskWithBmp.hash aBmpUsed.m_DataPath ∧
      (aBmpUsed.m_DataPath ≠ [] → aBmpUsed.m_DataPathExtension ≠ [])) ∧
    (shotOgg.m_DataPathWithoutExtension ++ shotOgg.m_DataPathExtension = shotOgg.m_DataPath ∧
      GetHash diskWithOgg shotOgg = diskWithOgg.hash shotOgg.m_DataPath ∧
      (shotOgg.m_DataPath ≠ [] → shotOgg.m_DataPathExtension ≠ [])) ∧
    (idle000Png.m_DataPathWithoutExtension ++ idle000Png.m_DataPathExtension
        = idle000Png.m_DataPath ∧
      GetHash diskWithIdle idle000Png = diskWithIdle.hash idle000Png.m_DataPath ∧
      (idle000Png.m_DataPath ≠ [] → idle000Png.m_DataPathExtension ≠ [])) :=
  ⟨(descriptor_consistency_invariant diskWithBmp).2.2.2.2.2.1 State.initial aPng 0 true []
      (some 0) bmpLoadedByFallback aBmpUsed (by decide) (by decide),
   (descriptor_consistency_invariant diskWithOgg).2.2.2.2.2.2.2 oggLoaded shotWav false false
      (some 1) oggLoadedTwice shotOgg (by decide) (by decide),
   (descriptor_consistency_invariant diskWithIdle).2.2.2.2.2.2.1 State.initial idlePng [] 1 0
      [some 0] idleLoaded idle000Png (by decide) (by decide)⟩

/-! ### The single frame of an animation -/

/-- C9, the claim fails when the `000` file does not decode: `idle.png` is not on disk and
`idle000.png` is, but `load_bitmap` fails for it, so the `RTEAssert` of `LoadAndReleaseBitmap`
ends the process and `GetAsAnimation` appends no handle. -/
theorem GetAsAnimation_single_frame_000_counterexample :
    idlePng.Consistent ∧
    diskWithCorruptIdle.PathExistsCaseSensitive idlePng.m_DataPath = false ∧
    diskWithCorruptIdle.PathExistsCaseSensitive
      (idlePng.m_DataPathWithoutExtension ++ "000".toList ++ idlePng.m_DataPathExtension)
      = true ∧
    GetAsAnimation diskWithCorruptIdle State.initial idlePng [] 1 0
      = .aborts .imageLoadFailed :=
  ⟨by decide, by decide, by decide, by decide⟩

/-- C9 as amended: for a frame count of 1 and a descriptor whose path is not on disk while the
path with `000` before the extension is on disk and decodes, `GetAsAnimation` rewrites the path
of the descriptor to the `000` path, logs no load warning, and returns with exactly one handle
appended, the one `GetAsBitmap` returns for the rewritten descriptor. -/
theorem GetAsAnimation_single_frame_000_decodes (env : Env) (s : State) (d : ContentFile)
    (vectorToFill : List Ptr) (conversionMode : Int) (hd : d.Consistent)
    (habsent : env.PathExistsCaseSensitive d.m_DataPath = false)
    (hpresent : env.PathExistsCaseSensitive
      (d.m_DataPathWithoutExtension ++ "000".toList ++ d.m_DataPathExtension) = true)
    (hdecode : env.load_bitmap (if conversionMode = 0 then env.COLORCONV_MOST else conversionMode)
      (d.m_DataPathWithoutExtension ++ "000".toList ++ d.m_DataPathExtension) = true) :
    ∃ s1 d1 bitmap s2 d2,
      SetDataPath env s (SetFormattedReaderPosition d d.m_FormattedReaderPosition)
          (d.m_DataPathWithoutExtension ++ "000".toList ++ d.m_DataPathExtension)
        = .returns (s1, d1) ∧
      d1.m_DataPath = d.m_DataPathWithoutExtension ++ "000".toList ++ d.m_DataPathExtension ∧
      s1.loadWarnings = s.loadWarnings ∧
      GetAsBitmap env s1 d1 conversionMode true [] = .returns (bitmap, s2, d2) ∧
      GetAsAnimation env s d vectorToFill 1 conversionMode
        = .returns (vectorToFill ++ [bitmap], s2, d2) ∧
      d2.m_DataPath = d.m_DataPathWithoutExtension ++ "000".toList ++ d.m_DataPathExtension ∧
      s2.loadWarnings = s.loadWarnings := by
  obtain ⟨s1, d1, hset, hd1, hw1, hanim, hkeep, hreturns⟩ :=
    GetAsAnimation_single_frame_000 env s d vectorToFill conversionMode hd habsent hpresent
  obtain ⟨bitmap, s2, d2, hget⟩ := hreturns hdecode
  obtain ⟨hw2, hd2⟩ := hkeep bitmap s2 d2 hget
  rw [hget] at hanim
  exact ⟨s1, d1, bitmap, s2, d2, hset, hd1, hw1, hget, hanim, hd2, hw2⟩

theorem GetAsAnimation_single_frame_000_decodes_witness :
    GetAsAnimation diskWithIdle State.initial idlePng [] 1 0
      = .returns ([some 0], idleLoaded, idle000Png) ∧
    idleLoaded.loadWarnings = [] ∧
    ∃ s1 d1 bitmap s2 d2,
      SetDataPath diskWithIdle State.initial
          (SetFormattedReaderPosition idlePng idlePng.m_FormattedReaderPosition)
          (idlePng.m_DataPathWithoutExtension ++ "000".toList ++ idlePng.m_DataPathExtension)
        = .returns (s1, d1) ∧
      d1.m_DataPath
        = idlePng.m_DataPathWithoutExtension ++ "000".toList ++ idlePng.m_DataPathExtension ∧
      s1.loadWarnings = State.initial.loadWarnings ∧
      GetAsBitmap diskWithIdle s1 d1 0 true [] = .returns (bitmap, s2, d2) ∧
      GetAsAnimation diskWithIdle State.initial idlePng [] 1 0
        = .returns ([] ++ [bitmap], s2, d2) ∧
      d2.m_DataPath
        = idlePng.m_DataPathWithoutExtension ++ "000".toList ++ idlePng.m_DataPathExtension ∧
      s2.loadWarnings = State.initial.loadWarnings :=
  ⟨by decide, by decide,
   GetAsAnimation_single_frame_000_decodes diskWithIdle State.initial idlePng [] 0 (by decide)
    (by decide) (by decide) (by decide)⟩

end RTE
